import Mathlib

/-!
# gdk: signer and session base

A shallow embedding of `src/session_impl.cpp` and `src/signer.cpp`.

* JSON documents (`nlohmann::json`) are the inductive type `Json`; objects are
  association lists kept in key order, as the underlying `std::map` keeps them.
* `std::map` is an association list with the three operations the sources use
  (`find`, `operator[]` assignment, `emplace`), inserting in key order.
* C++ exceptions are values of `Error`; a function that can throw returns
  `Except Error _`.  Where the object survives the exception with a changed
  state (the xpub cache of a signer), the function returns the outcome paired
  with the state after the call.
* `uint32_t` keys (subaccount, confirmation depth, path elements) are natural
  numbers: the sources only compare them.
* Locks are not modelled: every operation is one atomic step.
-/

namespace gdk

/-! ## Exceptions -/

/-- The exceptions the two translation units can raise: `user_error`
(exception.hpp), the failure of `GDK_RUNTIME_ASSERT`, the two exceptions of
`nlohmann::json` accessors, and a failure raised inside a primitive of the
wallet library. -/
inductive Error where
  | user_error (what : String)
  | assertion_error
  | json_out_of_range
  | json_type_error
  | external (what : String)
  deriving DecidableEq, Repr

/-! ## std::map -/

/-- Lookup of `std::map::find`: the value of the first entry stored under `k`. -/
def map_find {κ ν : Type} [DecidableEq κ] (k : κ) : List (κ × ν) → Option ν
  | [] => none
  | (k1, v1) :: rest => if k1 = k then some v1 else map_find k rest

/-- Assignment `m[k] = v` of `std::map`: the entry under `k` is overwritten, and
a new entry is inserted at its place in key order (`less` is the comparison of
the key type) when there is none. -/
def map_assign {κ ν : Type} [DecidableEq κ] (less : κ → κ → Bool) (k : κ) (v : ν) :
    List (κ × ν) → List (κ × ν)
  | [] => [(k, v)]
  | (k1, v1) :: rest =>
    if k1 = k then (k, v) :: rest
    else if less k k1 then (k, v) :: (k1, v1) :: rest
    else (k1, v1) :: map_assign less k v rest

/-- Insertion of `std::map::emplace`: nothing changes when an entry under `k`
exists; the flag tells whether the insertion took place. -/
def map_emplace {κ ν : Type} [DecidableEq κ] (less : κ → κ → Bool) (k : κ) (v : ν)
    (m : List (κ × ν)) : List (κ × ν) × Bool :=
  match map_find k m with
  | some _ => (m, false)
  | none => (map_assign less k v m, true)

/-- Lexicographic comparison of two sequences of unsigned numbers
(`std::lexicographical_compare`). -/
def lex_less : List Nat → List Nat → Bool
  | [], [] => false
  | [], _ :: _ => true
  | _ :: _, [] => false
  | a :: as, b :: bs => if a < b then true else if b < a then false else lex_less as bs

/-- Order of `std::string`: lexicographic on the characters. -/
def string_less (a b : String) : Bool :=
  lex_less (a.data.map Char.toNat) (b.data.map Char.toNat)

/-- Order of `std::pair<uint32_t, uint32_t>`. -/
def pair_less (a b : Nat × Nat) : Bool :=
  decide (a.1 < b.1) || (decide (a.1 = b.1) && decide (a.2 < b.2))

/-! ## nlohmann::json -/

/-- A JSON document.  Numbers are integers (the sources store booleans, strings
and enumeration values only). -/
inductive Json where
  | null
  | boolean (b : Bool)
  | number (n : Int)
  | string (s : String)
  | array (xs : List Json)
  | object (kvs : List (String × Json))
  deriving Repr

namespace Json

/-- The empty object, `nlohmann::json::object()`. -/
def empty_object : Json := object []

/-- Model of `json::is_null`. -/
def is_null : Json → Bool
  | null => true
  | _ => false

/-- Model of `json::empty`: null, and arrays and objects without elements. -/
def empty : Json → Bool
  | null => true
  | array xs => xs.isEmpty
  | object kvs => kvs.isEmpty
  | _ => false

/-- Model of `json::find(key)`: `none` stands for `end()`, which is also the
answer on a value that is not an object. -/
def find (j : Json) (key : String) : Option Json :=
  match j with
  | object kvs => map_find key kvs
  | _ => none

/-- Model of `json::contains(key)`. -/
def contains (j : Json) (key : String) : Bool :=
  (j.find key).isSome

/-- Model of `json::at(key)`: throws `out_of_range` on a missing key and
`type_error` on a value that is not an object. -/
def at_key (j : Json) (key : String) : Except Error Json :=
  match j with
  | object kvs =>
    match map_find key kvs with
    | some v => .ok v
    | none => .error .json_out_of_range
  | _ => .error .json_type_error

/-- Model of `j[key] = v`: null becomes an object first, and any other value
that is not an object throws `type_error`. -/
def assign_key (j : Json) (key : String) (v : Json) : Except Error Json :=
  match j with
  | null => .ok (object [(key, v)])
  | object kvs => .ok (object (map_assign string_less key v kvs))
  | _ => .error .json_type_error

/-- Object built from an initializer list of key and value pairs. -/
def of_pairs (kvs : List (String × Json)) : Json :=
  object (kvs.foldl (fun acc kv => (map_emplace string_less kv.1 kv.2 acc).1) [])

end Json

/-! ## session_impl: the unspent output cache -/

/-- Model of `utxo_cache_value_t`, a shared pointer to an immutable document;
`none` is the null pointer. -/
abbrev utxo_cache_value_t := Option Json

/-- Model of `utxo_cache_t`, a map from (subaccount, num_confs) to a document. -/
abbrev utxo_cache_t := List ((Nat × Nat) × Json)

/-- The part of the state of `session_impl` that its own member functions
read and write. -/
structure session_impl where
  m_net_params : Json
  m_debug_logging : Bool
  m_utxo_cache : utxo_cache_t

namespace session_impl

/-- Model of `session_impl::get_cached_utxos`. -/
def get_cached_utxos (self : session_impl) (subaccount num_confs : Nat) : utxo_cache_value_t :=
  map_find (subaccount, num_confs) self.m_utxo_cache

/-- Model of `session_impl::set_cached_utxos`: returns the stored snapshot and
the session after the call. -/
def set_cached_utxos (self : session_impl) (subaccount num_confs : Nat) (utxos : Json) :
    Except Error (utxo_cache_value_t × session_impl) := do
  -- Convert null UTXOs into an empty element
  let outputs ← utxos.at_key "unspent_outputs"
  let utxos ← if outputs.is_null then utxos.assign_key "unspent_outputs" Json.empty_object
    else pure utxos
  -- Encache
  let entry := utxos
  pure (some entry,
    { self with m_utxo_cache := map_assign pair_less (subaccount, num_confs) entry self.m_utxo_cache })

/-- Model of `session_impl::remove_cached_utxos`. -/
def remove_cached_utxos (self : session_impl) (subaccounts : List Nat) : session_impl :=
  if subaccounts.isEmpty then
    -- Empty subaccount list means clear the entire cache
    { self with m_utxo_cache := [] }
  else
    -- Remove all entries for affected subaccounts
    { self with m_utxo_cache := self.m_utxo_cache.filter (fun p => !(subaccounts.contains p.1.1)) }

end session_impl

/-! ## Conversions of nlohmann::json used by the signer -/

namespace Json

/-- Conversion of a document to `std::string`: `type_error` unless it is a string. -/
def get_string : Json → Except Error String
  | string s => .ok s
  | _ => .error .json_type_error

/-- Conversion of a document to `bool`: `type_error` unless it is a boolean. -/
def get_bool : Json → Except Error Bool
  | boolean b => .ok b
  | _ => .error .json_type_error

/-- Conversion of a document to an enumeration over `uint32_t`: the number,
cast to 32 bits; `type_error` unless it is a number. -/
def get_enum : Json → Except Error Nat
  | number n => .ok (n % 4294967296).toNat
  | _ => .error .json_type_error

/-- Comparison `j == "text"` of a document with a string literal. -/
def eq_string (j : Json) (text : String) : Bool :=
  match j with
  | string s => decide (s = text)
  | _ => false

/-- Model of `j.value(key, default)` with a document as default: the member under
`key`, the default when there is none, `type_error` when `j` is not an object. -/
def value_json (j : Json) (key : String) (default_ : Json) : Except Error Json :=
  match j with
  | object kvs =>
    match map_find key kvs with
    | some v => .ok v
    | none => .ok default_
  | _ => .error .json_type_error

/-- Model of `j.value(key, default)` with a `std::string` as default: the member
under `key` is converted to a string. -/
def value_string (j : Json) (key : String) (default_ : String) : Except Error String :=
  match j with
  | object kvs =>
    match map_find key kvs with
    | some v => v.get_string
    | none => .ok default_
  | _ => .error .json_type_error

/-- Model of the read `j[key]` on a constant document: the member must exist. -/
def subscript (j : Json) (key : String) : Except Error Json :=
  match j with
  | object kvs =>
    match map_find key kvs with
    | some v => .ok v
    | none => .error .assertion_error
  | _ => .error .json_type_error

end Json

/-! ## signer: constants and primitives -/

/-- Modelled from the spec: the enumeration `liquid_support_level` is declared in
signer.hpp, which is not among the sources.  The spec lists its values as none,
lite, full; an enumeration over `uint32_t` is stored in a document as its
number, here the position in that list. -/
abbrev liquid_support_level := Nat

/-- Liquid is not supported. -/
def liquid_support_level.none : liquid_support_level := 0

/-- Liquid is supported, unblinding is done on the host. -/
def liquid_support_level.lite : liquid_support_level := 1

/-- Liquid is supported, unblinding is done on the device. -/
def liquid_support_level.full : liquid_support_level := 2

/-- Modelled from the spec: the enumeration `ae_protocol_support_level` is
declared in signer.hpp, which is not among the sources.  The spec names its least
value none; it is stored in a document as its number. -/
abbrev ae_protocol_support_level := Nat

/-- The anti-exfiltration protocol is not supported. -/
def ae_protocol_support_level.none : ae_protocol_support_level := 0

/-- Document holding an enumeration value (`to_json` of an enumeration). -/
def enum_json (level : Nat) : Json := Json.number (Int.ofNat level)

/-- Modelled from the spec: the message `res::id_the_hardware_wallet_you_are` is
declared in ga_strings.hpp, which is not among the sources; it is the text of the
user error "hardware wallet does not support this network". -/
def id_the_hardware_wallet_you_are : String := "id_the_hardware_wallet_you_are"

/-- Flag of libwally: derive a private key. -/
def BIP32_FLAG_KEY_PRIVATE : Nat := 0

/-- Flag of libwally: derive a public key. -/
def BIP32_FLAG_KEY_PUBLIC : Nat := 1

/-- Flag of libwally: skip the computation of the parent hash. -/
def BIP32_FLAG_SKIP_HASH : Nat := 2

/-- Version of a main net private extended key. -/
def BIP32_VER_MAIN_PRIVATE : Nat := 0x0488ADE4

/-- Version of a test net private extended key. -/
def BIP32_VER_TEST_PRIVATE : Nat := 0x04358394

/-- The functions of utils.cpp and of the wallet library that signer.cpp calls and
that are not among the sources.  They are parameters of the model: `Key` is the
type of an extended key, bytes are numbers, and each function that checks its
input may throw. -/
structure Primitives (Key : Type) where
  decrypt_mnemonic : String → String → Except Error String
  encrypt_mnemonic : String → String → Except Error String
  bip39_mnemonic_to_seed : String → Except Error (List Nat)
  b2h : List Nat → String
  h2b : String → Except Error (List Nat)
  bip32_key_from_seed_alloc : List Nat → Nat → Nat → Except Error Key
  asset_blinding_key_from_seed : List Nat → Except Error (List Nat)
  bip32_key_from_parent_path_alloc : Key → List Nat → Nat → Except Error Key
  bip32_key_serialize : Key → Nat → Except Error (List Nat)
  base58check_from_bytes : List Nat → Except Error String
  bip32_public_key_from_bip32_xpub : String → Except Error Key

/-- Modelled from the spec: `json_add_if_missing` is defined in utils.cpp, which
is not among the sources.  A field absent from the document is set to the given
default; with `or_null` (the callers pass `overwrite_null = true`) a field that
is null counts as absent. -/
def json_add_if_missing (data : Json) (key : String) (value : Json) (or_null : Bool) :
    Except Error Json :=
  match data.find key with
  | none => data.assign_key key value
  | some v => if or_null && v.is_null then data.assign_key key value else .ok data

/-- Model of the accessors of `network_parameters` (network_parameters.hpp) that
the constructor of the signer reads. -/
structure network_parameters where
  is_main_net : Bool
  is_liquid : Bool
  btc_version : Nat

/-! ## signer: credentials and device -/

/-- Model of `derive` (anonymous namespace of signer.cpp). -/
def derive {Key : Type} (E : Primitives Key) (hdkey : Key) (path : List Nat) (flags : Nat) :
    Except Error Key :=
  E.bip32_key_from_parent_path_alloc hdkey path (flags ||| BIP32_FLAG_SKIP_HASH)

/-- Model of `signer::EMPTY_PATH`. -/
def EMPTY_PATH : List Nat := []

/-- Model of `signer::LOGIN_PATH`. -/
def LOGIN_PATH : List Nat := [0x4741b11e]

/-- Model of `derive_login_bip32_xpub`. -/
def derive_login_bip32_xpub {Key : Type} (E : Primitives Key) (master_key : Key) :
    Except Error String := do
  let login_hdkey ← derive E master_key LOGIN_PATH BIP32_FLAG_KEY_PUBLIC
  let bytes ← E.bip32_key_serialize login_hdkey BIP32_FLAG_KEY_PUBLIC
  E.base58check_from_bytes bytes

/-- Model of `get_credentials_json`: the normalised credentials. -/
def get_credentials_json {Key : Type} (E : Primitives Key) (credentials : Json) :
    Except Error Json :=
  if credentials.empty then
    -- Hardware wallet
    .ok Json.null
  else
    match credentials.find "username" with
    | some username =>
      -- Watch-only login
      match credentials.at_key "password" with
      | .error e => .error e
      | .ok password => .ok (Json.of_pairs [("username", username), ("password", password)])
    | none =>
      match credentials.find "mnemonic" with
      | some mnemonic_j =>
        -- Mnemonic, or a hex seed
        match mnemonic_j.get_string with
        | .error e => .error e
        | .ok mnemonic =>
          if mnemonic.data.contains ' ' then
            -- Mnemonic, possibly encrypted
            let decrypted : Except Error String :=
              match credentials.find "password" with
              | some password_j =>
                -- Encrypted; decrypt it
                match password_j.get_string with
                | .error e => .error e
                | .ok password => E.decrypt_mnemonic mnemonic password
              | none => .ok mnemonic
            match decrypted with
            | .error e => .error e
            | .ok mnemonic =>
              match E.bip39_mnemonic_to_seed mnemonic with
              | .error e => .error e
              | .ok seed =>
                .ok (Json.of_pairs
                  [("mnemonic", Json.string mnemonic), ("seed", Json.string (E.b2h seed))])
          else if mnemonic.utf8ByteSize = 129 ∧ mnemonic.data.getLast? = some 'X' then
            -- Hex seed (a 512 bits bip32 seed encoding in hex with 'X' appended)
            .ok (Json.of_pairs [("seed", Json.string (String.mk mnemonic.data.dropLast))])
          else .error (.user_error "Invalid credentials")
      | none => .error (.user_error "Invalid credentials")

/-- Model of `WATCH_ONLY_DEVICE_JSON`. -/
def WATCH_ONLY_DEVICE_JSON : Json :=
  Json.of_pairs [("device_type", Json.string "watch-only"), ("supports_low_r", Json.boolean true),
    ("supports_arbitrary_scripts", Json.boolean true),
    ("supports_host_unblinding", Json.boolean false),
    ("supports_liquid", enum_json liquid_support_level.none),
    ("supports_ae_protocol", enum_json ae_protocol_support_level.none)]

/-- Model of `SOFTWARE_DEVICE_JSON`. -/
def SOFTWARE_DEVICE_JSON : Json :=
  Json.of_pairs [("device_type", Json.string "software"), ("supports_low_r", Json.boolean true),
    ("supports_arbitrary_scripts", Json.boolean true),
    ("supports_host_unblinding", Json.boolean true),
    ("supports_liquid", enum_json liquid_support_level.lite),
    ("supports_ae_protocol", enum_json ae_protocol_support_level.none)]

/-- The first part of `get_device_json`: the descriptor chosen before the
defaults are filled in. -/
def get_device_json_choice (hw_device credentials : Json) : Except Error Json :=
  let device : Except Error Json :=
    if hw_device.empty then .ok Json.empty_object
    else hw_device.value_json "device" Json.empty_object
  match device with
  | .error e => .error e
  | .ok device =>
    if !device.empty then
      if !credentials.empty then
        .error (.user_error "Hardware device and login credentials cannot be used together")
      else .ok device
    else if credentials.contains "username" then .ok WATCH_ONLY_DEVICE_JSON
    else if credentials.contains "seed" then .ok SOFTWARE_DEVICE_JSON
    else .error (.user_error "Hardware device or credentials required")

/-- The second part of `get_device_json`: the six calls of `json_add_if_missing`. -/
def get_device_json_fill (ret : Json) : Except Error Json := do
  let overwrite_null := true
  let ret ← json_add_if_missing ret "supports_low_r" (Json.boolean false) overwrite_null
  let ret ← json_add_if_missing ret "supports_arbitrary_scripts" (Json.boolean false) overwrite_null
  let ret ← json_add_if_missing ret "supports_host_unblinding" (Json.boolean false) overwrite_null
  let ret ← json_add_if_missing ret "supports_liquid" (enum_json liquid_support_level.none)
    overwrite_null
  let ret ← json_add_if_missing ret "supports_ae_protocol" (enum_json ae_protocol_support_level.none)
    overwrite_null
  json_add_if_missing ret "device_type" (Json.string "hardware") overwrite_null

/-- Model of `get_device_json`: the resolved device descriptor. -/
def get_device_json (hw_device credentials : Json) : Except Error Json := do
  let ret ← get_device_json_choice hw_device credentials
  let ret ← get_device_json_fill ret
  let device_type ← ret.at_key "device_type"
  if device_type.eq_string "hardware" then
    let name ← ret.value_string "name" ""
    if name = "" then
      Except.error (Error.user_error "Hardware device JSON requires a non-empty \x27name\x27 element")
    else Except.ok ret
  else Except.ok ret

/-! ## signer -/

/-- Model of `signer::cache_t`, a map from a path to an extended public key. -/
abbrev cache_t := List (List Nat × String)

/-- The data members of `signer`. -/
structure signer (Key : Type) where
  m_is_main_net : Bool
  m_is_liquid : Bool
  m_btc_version : Nat
  m_credentials : Json
  m_device : Json
  m_master_key : Option Key
  m_master_blinding_key : Option (List Nat)
  m_cached_bip32_xpubs : cache_t

namespace signer

/-- Model of `signer::get_liquid_support`, on the device descriptor. -/
def get_liquid_support_of (m_device : Json) : Except Error liquid_support_level := do
  let v ← m_device.subscript "supports_liquid"
  v.get_enum

/-- Model of the constructor `signer::signer`. -/
def create {Key : Type} (E : Primitives Key) (net_params : network_parameters)
    (hw_device credentials : Json) : Except Error (signer Key) := do
  let m_is_main_net := net_params.is_main_net
  let m_is_liquid := net_params.is_liquid
  let m_btc_version := net_params.btc_version
  let m_credentials ← get_credentials_json E credentials
  let m_device ← get_device_json hw_device m_credentials
  let unsupported ←
    if m_is_liquid then do
      let level ← get_liquid_support_of m_device
      pure (decide (level = liquid_support_level.none))
    else pure false
  if unsupported then throw (Error.user_error id_the_hardware_wallet_you_are)
  match m_credentials.find "seed" with
  | some seed_j =>
    let seed_hex ← seed_j.get_string
    let seed ← E.h2b seed_hex
    let version := if m_is_main_net then BIP32_VER_MAIN_PRIVATE else BIP32_VER_TEST_PRIVATE
    let m_master_key ← E.bip32_key_from_seed_alloc seed version 0
    if m_is_liquid then
      let m_master_blinding_key ← E.asset_blinding_key_from_seed seed
      pure ⟨m_is_main_net, m_is_liquid, m_btc_version, m_credentials, m_device,
        some m_master_key, some m_master_blinding_key, []⟩
    else
      pure ⟨m_is_main_net, m_is_liquid, m_btc_version, m_credentials, m_device,
        some m_master_key, none, []⟩
  | none =>
    pure ⟨m_is_main_net, m_is_liquid, m_btc_version, m_credentials, m_device, none, none, []⟩

variable {Key : Type}

/-- Model of `signer::get_liquid_support`. -/
def get_liquid_support (self : signer Key) : Except Error liquid_support_level :=
  get_liquid_support_of self.m_device

/-- Model of `signer::is_watch_only`. -/
def is_watch_only (self : signer Key) : Except Error Bool := do
  let v ← self.m_device.subscript "device_type"
  pure (v.eq_string "watch-only")

/-- Model of `signer::is_hardware`. -/
def is_hardware (self : signer Key) : Except Error Bool := do
  let v ← self.m_device.subscript "device_type"
  pure (v.eq_string "hardware")

/-- Model of `signer::get_mnemonic`. -/
def get_mnemonic (E : Primitives Key) (self : signer Key) (password : String) :
    Except Error String := do
  let hardware ← self.is_hardware
  let skip ← if hardware then pure true else self.is_watch_only
  if skip then pure ""
  else
    match self.m_credentials.find "mnemonic" with
    | some mnemonic_j =>
      let mnemonic ← mnemonic_j.get_string
      E.encrypt_mnemonic mnemonic password -- Mnemonic
    | none =>
      let seed_j ← self.m_credentials.at_key "seed"
      let seed ← seed_j.get_string
      pure (seed ++ "X") -- Hex seed

/-- The signer with another xpub cache. -/
def with_cache (self : signer Key) (cache : cache_t) : signer Key :=
  { self with m_cached_bip32_xpubs := cache }

/-- Model of `signer::get_bip32_xpub`: the outcome and the signer after the call. -/
def get_bip32_xpub (E : Primitives Key) (self : signer Key) (path : List Nat) :
    Except Error String × signer Key :=
  match map_find path self.m_cached_bip32_xpubs with
  | some cached => (.ok cached, self)
  | none =>
    match self.m_master_key with
    | none => (.error .assertion_error, self)
    | some master =>
      let derived : Except Error (Key × String) :=
        if !path.isEmpty then
          match derive E master path BIP32_FLAG_KEY_PRIVATE with
          | .error e => .error e
          | .ok derived => .ok (derived, "")
        else
          -- We are encaching the master pubkey. Encache the login pubkey
          -- at the same time
          match derive_login_bip32_xpub E master with
          | .error e => .error e
          | .ok login_bip32_xpub => .ok (master, login_bip32_xpub)
      match derived with
      | .error e => (.error e, self)
      | .ok (hdkey, login_bip32_xpub) =>
        match E.bip32_key_serialize hdkey BIP32_FLAG_KEY_PUBLIC with
        | .error e => (.error e, self)
        | .ok bytes =>
          match E.base58check_from_bytes bytes with
          | .error e => (.error e, self)
          | .ok ret =>
            let cache := (map_emplace lex_less path ret self.m_cached_bip32_xpubs).1
            if login_bip32_xpub ≠ "" then
              (.ok ret, self.with_cache (map_emplace lex_less LOGIN_PATH login_bip32_xpub cache).1)
            else (.ok ret, self.with_cache cache)

/-- Model of `signer::has_bip32_xpub`. -/
def has_bip32_xpub (self : signer Key) (path : List Nat) : Bool :=
  (map_find path self.m_cached_bip32_xpubs).isSome

/-- Model of `signer::cache_bip32_xpub`: the outcome and the signer after the call. -/
def cache_bip32_xpub (E : Primitives Key) (self : signer Key) (path : List Nat)
    (bip32_xpub : String) : Except Error Bool × signer Key :=
  let ret := map_emplace lex_less path bip32_xpub self.m_cached_bip32_xpubs
  if !ret.2 then
    -- Already present, verify that the value matches
    if map_find path ret.1 = some bip32_xpub then (.ok false, self.with_cache ret.1) -- Not updated
    else (.error .assertion_error, self.with_cache ret.1)
  else if path.isEmpty then
    -- Encaching master pubkey, encache the login pubkey as above
    match E.bip32_public_key_from_bip32_xpub bip32_xpub with
    | .error e => (.error e, self.with_cache ret.1)
    | .ok master_pubkey =>
      match derive_login_bip32_xpub E master_pubkey with
      | .error e => (.error e, self.with_cache ret.1)
      | .ok login =>
        (.ok true, self.with_cache (map_emplace lex_less LOGIN_PATH login ret.1).1)
  else (.ok true, self.with_cache ret.1) -- Updated

/-- Model of `signer::get_cached_bip32_xpubs`. -/
def get_cached_bip32_xpubs (self : signer Key) : cache_t :=
  self.m_cached_bip32_xpubs

end signer

/-! ## Description of the filled device descriptor -/

/-- The value of a field after `json_add_if_missing` with `or_null`: the default
when the field was absent or null, its former value otherwise. -/
def filled_value (old : Option Json) (default_ : Json) : Json :=
  match old with
  | none => default_
  | some v => if v.is_null then default_ else v

/-- The defaults that `get_device_json` passes to `json_add_if_missing`, by key. -/
def device_default (key : String) : Option Json :=
  if key = "supports_low_r" then some (Json.boolean false)
  else if key = "supports_arbitrary_scripts" then some (Json.boolean false)
  else if key = "supports_host_unblinding" then some (Json.boolean false)
  else if key = "supports_liquid" then some (enum_json liquid_support_level.none)
  else if key = "supports_ae_protocol" then some (enum_json ae_protocol_support_level.none)
  else if key = "device_type" then some (Json.string "hardware")
  else none

/-! ## Hexadecimal strings -/

/-- The characters of a hexadecimal string. -/
def hex_chars : List Char := "0123456789abcdefABCDEF".data

/-- A string of hexadecimal characters. -/
def is_hex (s : String) : Prop := ∀ c ∈ s.data, c ∈ hex_chars

/-! ## Encrypted mnemonics -/

/-- Length of a SHA-512 digest (libwally), the size of `blinding_key_t`. -/
def SHA512_LEN : Nat := 64

namespace signer

variable {Key : Type}

/-- Model of `signer::get_ae_protocol_support`. -/
def get_ae_protocol_support (self : signer Key) : Except Error ae_protocol_support_level := do
  let v ← self.m_device.subscript "supports_ae_protocol"
  v.get_enum

/-- Model of `signer::supports_low_r`. -/
def supports_low_r (self : signer Key) : Except Error Bool := do
  let ae ← self.get_ae_protocol_support
  if ae ≠ ae_protocol_support_level.none then
    Except.ok false -- Always use AE if the HW supports it
  else
    let v ← self.m_device.subscript "supports_low_r"
    v.get_bool

/-- Model of `signer::supports_arbitrary_scripts`. -/
def supports_arbitrary_scripts (self : signer Key) : Except Error Bool := do
  let v ← self.m_device.subscript "supports_arbitrary_scripts"
  v.get_bool

/-- Model of `signer::supports_host_unblinding`. -/
def supports_host_unblinding (self : signer Key) : Except Error Bool := do
  let v ← self.m_device.subscript "supports_host_unblinding"
  v.get_bool

/-- Model of `signer::has_master_blinding_key`. -/
def has_master_blinding_key (self : signer Key) : Bool :=
  self.m_master_blinding_key.isSome

/-- Model of `signer::set_master_blinding_key`: the outcome and the signer after
the call. -/
def set_master_blinding_key (E : Primitives Key) (self : signer Key) (blinding_key_hex : String) :
    Except Error Unit × signer Key :=
  if blinding_key_hex ≠ "" then
    match E.h2b blinding_key_hex with
    | .error e => (.error e, self)
    | .ok key_bytes =>
      let key_size := key_bytes.length
      if key_size = SHA512_LEN ∨ key_size = SHA512_LEN / 2 then
        let key : List Nat := List.replicate SHA512_LEN 0
        -- Handle both full and half-size blinding keys
        let offset := SHA512_LEN - key_size
        let key := key.take offset ++ key_bytes ++ key.drop (offset + key_size)
        (.ok (), { self with m_master_blinding_key := some key })
      else (.error .assertion_error, self)
  else (.ok (), self)

end signer

/-! ## session_impl: network overrides -/

/-- The type `T` of the hard-coded default in a call of `set_override`: it is the
type to which `json::value` converts the member it finds. -/
inductive override_type where
  | bool
  | string
  | json
  | int
  deriving DecidableEq, Repr

/-- Conversion of a 64 bit number to `int` (`static_cast<int>`): the number modulo
2^32, in the range from -2^31 to 2^31 - 1. -/
def to_int32 (n : Int) : Int :=
  (n + 2147483648) % 4294967296 - 2147483648

/-- Model of `get<T>()` on a member, as the document that holds the result: a
boolean or a string must be one, a document is taken as it is, and an `int` is
read from a number or a boolean. -/
def override_type.get (T : override_type) (j : Json) : Except Error Json :=
  match T, j with
  | .bool, Json.boolean b => .ok (Json.boolean b)
  | .string, Json.string s => .ok (Json.string s)
  | .json, v => .ok v
  | .int, Json.number n => .ok (Json.number (to_int32 n))
  | .int, Json.boolean b => .ok (Json.number (if b then 1 else 0))
  | _, _ => .error .json_type_error

/-- Model of `j.value(key, default)` with a default of type `T`. -/
def Json.value_as (T : override_type) (j : Json) (key : String) (default_ : Json) :
    Except Error Json :=
  match j with
  | Json.object kvs =>
    match map_find key kvs with
    | some v => T.get v
    | none => .ok default_
  | _ => .error .json_type_error

/-- Model of `set_override`: the document `ret` after the call. -/
def set_override (ret : Json) (key : String) (src : Json) (T : override_type) (default_ : Json) :
    Except Error Json := do
  -- Use the users provided value, else the registered value, else the default
  let registered ← ret.value_as T key default_
  let value ← src.value_as T key registered
  ret.assign_key key value

/-- Model of `get_network_overrides`: the document of the effective parameters,
which `network_parameters` wraps. -/
def get_network_overrides (user_params defaults : Json) : Except Error Json := do
  -- Set override-able settings from the users parameters
  let defaults ← set_override defaults "electrum_tls" user_params .bool (Json.boolean false)
  let defaults ← set_override defaults "electrum_url" user_params .string (Json.string "")
  let defaults ← set_override defaults "log_level" user_params .string (Json.string "none")
  let defaults ← set_override defaults "spv_multi" user_params .bool (Json.boolean false)
  let defaults ← set_override defaults "spv_servers" user_params .json (Json.array [])
  let defaults ← set_override defaults "spv_enabled" user_params .bool (Json.boolean false)
  let defaults ← set_override defaults "use_tor" user_params .bool (Json.boolean false)
  let defaults ← set_override defaults "user_agent" user_params .string (Json.string "")
  let defaults ← set_override defaults "cert_expiry_threshold" user_params .int (Json.number 1)
  pure defaults

/-- The override-able keys with the type and the value of their hard-coded
default, as `get_network_overrides` passes them. -/
def override_default (key : String) : Option (override_type × Json) :=
  if key = "electrum_tls" then some (.bool, Json.boolean false)
  else if key = "electrum_url" then some (.string, Json.string "")
  else if key = "log_level" then some (.string, Json.string "none")
  else if key = "spv_multi" then some (.bool, Json.boolean false)
  else if key = "spv_servers" then some (.json, Json.array [])
  else if key = "spv_enabled" then some (.bool, Json.boolean false)
  else if key = "use_tor" then some (.bool, Json.boolean false)
  else if key = "user_agent" then some (.string, Json.string "")
  else if key = "cert_expiry_threshold" then some (.int, Json.number 1)
  else none

/-- A member, when present, already has the type `T`: `get<T>()` returns it
unchanged. -/
def member_has_type (T : override_type) (member : Option Json) : Prop :=
  ∀ v, member = some v → T.get v = .ok v

/-- The effective value of a key: the user's, else the registered, else the
default. -/
def effective_value (user registered : Option Json) (default_ : Json) : Json :=
  match user with
  | some v => v
  | none =>
    match registered with
    | some v => v
    | none => default_

/-! ## Equality of documents and compatible signers -/

mutual

/-- Model of `operator==` of `nlohmann::json` on the documents of the model: the
same kind of value with equal content. -/
def Json.equals : Json → Json → Bool
  | Json.null, Json.null => true
  | Json.boolean a, Json.boolean b => decide (a = b)
  | Json.number a, Json.number b => decide (a = b)
  | Json.string a, Json.string b => decide (a = b)
  | Json.array xs, Json.array ys => Json.equals_elements xs ys
  | Json.object xs, Json.object ys => Json.equals_members xs ys
  | _, _ => false

/-- Equality of the elements of two arrays, in order. -/
def Json.equals_elements : List Json → List Json → Bool
  | [], [] => true
  | x :: xs, y :: ys => Json.equals x y && Json.equals_elements xs ys
  | _, _ => false

/-- Equality of the members of two objects, in key order. -/
def Json.equals_members : List (String × Json) → List (String × Json) → Bool
  | [], [] => true
  | (k, x) :: xs, (l, y) :: ys => decide (k = l) && Json.equals x y && Json.equals_members xs ys
  | _, _ => false

end

/-- Model of `signer::is_compatible_with`. -/
def signer.is_compatible_with {Key : Type} (self other : signer Key) : Bool :=
  self.m_credentials.equals other.m_credentials && self.m_device.equals other.m_device

/-! ## Sequences of calls on the xpub cache -/

/-- A call of one of the four member functions of `signer` that use the xpub
cache. -/
inductive xpub_call where
  | get_bip32_xpub (path : List Nat)
  | has_bip32_xpub (path : List Nat)
  | cache_bip32_xpub (path : List Nat) (bip32_xpub : String)
  | get_cached_bip32_xpubs
  deriving DecidableEq, Repr

/-- The signer after a call, whether the call returned or failed. -/
def xpub_call.run {Key : Type} (E : Primitives Key) (self : signer Key) : xpub_call → signer Key
  | .get_bip32_xpub path => (signer.get_bip32_xpub E self path).2
  | .has_bip32_xpub _ => self
  | .cache_bip32_xpub path bip32_xpub => (signer.cache_bip32_xpub E self path bip32_xpub).2
  | .get_cached_bip32_xpubs => self

/-- The signer after a sequence of calls. -/
def run_calls {Key : Type} (E : Primitives Key) (self : signer Key) (calls : List xpub_call) :
    signer Key :=
  calls.foldl (fun s call => call.run E s) self

/-! ## Stand-ins for the primitives -/

/-- Stand-ins for the primitives, to run the model on concrete inputs.  A key is a
number, the serialisation of the key `k` is the string of `k + 1` letters x,
and a string that is not of this form does not parse as a key (the real
`bip32_public_key_from_bip32_xpub` rejects a string that is not the base58check
form of a serialised key).  Encryption puts the password and a space before the
mnemonic. -/
def test_primitives : Primitives Nat where
  decrypt_mnemonic := fun m p => .ok (String.mk (m.data.drop (p.data.length + 1)))
  encrypt_mnemonic := fun m p => .ok (p ++ " " ++ m)
  bip39_mnemonic_to_seed := fun m => .ok (m.data.map Char.toNat)
  b2h := fun bytes => String.mk (bytes.map (fun b => if b % 2 = 0 then 'a' else 'b'))
  h2b := fun h => .ok (h.data.map Char.toNat)
  bip32_key_from_seed_alloc := fun seed _ _ => .ok seed.length
  asset_blinding_key_from_seed := fun seed => .ok seed
  bip32_key_from_parent_path_alloc := fun k path _ => .ok (k + path.length)
  bip32_key_serialize := fun k _ => .ok [k]
  base58check_from_bytes := fun bytes => .ok (String.mk (List.replicate (bytes.sum + 1) 'x'))
  bip32_public_key_from_bip32_xpub := fun x =>
    if x.data.all (fun c => c = 'x') && x.data.length ≠ 0 then .ok (x.data.length - 1)
    else .error (.external "not an extended key")

theorem map_find_assign_same {κ ν : Type} [DecidableEq κ] (less : κ → κ → Bool) (k : κ) (v : ν)
    (m : List (κ × ν)) : map_find k (map_assign less k v m) = some v := by
  induction m with
  | nil => simp [map_assign, map_find]
  | cons hd tl ih =>
    obtain ⟨k1, v1⟩ := hd
    by_cases h1 : k1 = k
    · simp [map_assign, map_find, h1]
    · by_cases h2 : less k k1 = true
      · simp [map_assign, map_find, h1, h2]
      · simp [map_assign, map_find, h1, h2, ih]

theorem map_find_assign_other {κ ν : Type} [DecidableEq κ] (less : κ → κ → Bool) (k k2 : κ) (v : ν)
    (m : List (κ × ν)) (hne : k2 ≠ k) : map_find k2 (map_assign less k v m) = map_find k2 m := by
  have hne2 : ¬ k = k2 := fun h => hne h.symm
  induction m with
  | nil => simp [map_assign, map_find, hne2]
  | cons hd tl ih =>
    obtain ⟨k1, v1⟩ := hd
    by_cases h1 : k1 = k
    · subst h1
      simp [map_assign, map_find, hne2]
    · by_cases h2 : less k k1 = true
      · simp [map_assign, map_find, h1, h2, hne2]
      · by_cases h3 : k1 = k2
        · subst h3
          simp [map_assign, map_find, h1, h2]
        · simp [map_assign, map_find, h1, h2, h3, ih]

theorem map_find_filter_key {κ ν : Type} [DecidableEq κ] (keep : κ → Bool) (k : κ)
    (m : List (κ × ν)) :
    map_find k (m.filter (fun p => keep p.1)) = if keep k then map_find k m else none := by
  induction m with
  | nil => simp [map_find]
  | cons hd tl ih =>
    obtain ⟨k1, v1⟩ := hd
    by_cases hk : keep k1 = true
    · by_cases h1 : k1 = k
      · subst h1
        simp [List.filter, hk, map_find]
      · simp [List.filter, hk, map_find, h1, ih]
    · by_cases h1 : k1 = k
      · subst h1
        simp [List.filter, hk, map_find, ih]
      · simp [List.filter, hk, map_find, h1, ih]

theorem map_find_none_of_no_entry {κ ν : Type} [DecidableEq κ] (k : κ) (m : List (κ × ν))
    (h : ∀ v, (k, v) ∉ m) : map_find k m = none := by
  induction m with
  | nil => rfl
  | cons hd tl ih =>
    obtain ⟨k1, v1⟩ := hd
    have h1 : ¬ k1 = k := by
      intro he
      exact h v1 (by simp [he])
    have h2 : ∀ v, (k, v) ∉ tl := fun v hv => h v (List.mem_cons_of_mem _ hv)
    simp [map_find, h1, ih h2]

theorem map_find_mem {κ ν : Type} [DecidableEq κ] (k : κ) (v : ν) (m : List (κ × ν))
    (h : map_find k m = some v) : (k, v) ∈ m := by
  induction m with
  | nil => simp [map_find] at h
  | cons hd tl ih =>
    obtain ⟨k1, v1⟩ := hd
    by_cases h1 : k1 = k
    · simp [map_find, h1] at h
      simp [h1, h]
    · simp [map_find, h1] at h
      exact List.mem_cons_of_mem _ (ih h)

/-! ## The unspent output cache -/

theorem set_cached_utxos_stores (self : session_impl) (sa n : Nat) (u : Json)
    (r : utxo_cache_value_t) (after : session_impl)
    (hset : self.set_cached_utxos sa n u = .ok (r, after)) :
    ∃ entry, r = some entry
      ∧ after.m_utxo_cache = map_assign pair_less (sa, n) entry self.m_utxo_cache := by
  simp only [session_impl.set_cached_utxos, bind, Except.bind, pure, Except.pure] at hset
  cases h1 : u.at_key "unspent_outputs" with
  | error e => simp [h1] at hset
  | ok outputs =>
    simp only [h1] at hset
    cases h2 : outputs.is_null with
    | true =>
      simp only [h2, if_true] at hset
      cases h3 : u.assign_key "unspent_outputs" Json.empty_object with
      | error e => simp [h3] at hset
      | ok w =>
        simp only [h3, Except.ok.injEq, Prod.mk.injEq] at hset
        exact ⟨w, hset.1.symm, by rw [← hset.2]⟩
    | false =>
      simp only [h2, Bool.false_eq_true, if_false, Except.ok.injEq, Prod.mk.injEq] at hset
      exact ⟨u, hset.1.symm, by rw [← hset.2]⟩

/-- C1: for a document `u` with an "unspent_outputs" field, `set_cached_utxos`
returns a snapshot and a following `get_cached_utxos` on the same key yields that
snapshot; the snapshot is `u` with a null "unspent_outputs" replaced by the
empty object (every other field as in `u`, and `u` itself when the field is not
null), so the field observed is never null. -/
theorem set_then_get_cached_utxos (self : session_impl) (sa n : Nat) (u out : Json)
    (h : u.find "unspent_outputs" = some out) :
    ∃ entry after, self.set_cached_utxos sa n u = .ok (some entry, after)
      ∧ after.get_cached_utxos sa n = some entry
      ∧ entry.find "unspent_outputs" = some (if out.is_null then Json.empty_object else out)
      ∧ (∀ key, key ≠ "unspent_outputs" → entry.find key = u.find key)
      ∧ (out.is_null = false → entry = u)
      ∧ entry.find "unspent_outputs" ≠ some Json.null := by
  cases u with
  | object kvs =>
    simp only [Json.find] at h
    cases hn : out.is_null with
    | true =>
      refine ⟨Json.object (map_assign string_less "unspent_outputs" Json.empty_object kvs),
        ⟨self.m_net_params, self.m_debug_logging, map_assign pair_less (sa, n)
            (Json.object (map_assign string_less "unspent_outputs" Json.empty_object kvs))
            self.m_utxo_cache⟩, ?_, ?_, ?_, ?_, ?_, ?_⟩
      · simp [session_impl.set_cached_utxos, Json.at_key, h, hn, Json.assign_key, bind,
          Except.bind, pure, Except.pure]
      · simp [session_impl.get_cached_utxos, map_find_assign_same]
      · simp [Json.find, map_find_assign_same]
      · intro key hkey
        simp [Json.find, map_find_assign_other _ _ _ _ _ hkey]
      · intro hf
        simp at hf
      · simp [Json.find, map_find_assign_same, Json.empty_object]
    | false =>
      refine ⟨Json.object kvs,
        ⟨self.m_net_params, self.m_debug_logging, map_assign pair_less (sa, n) (Json.object kvs)
            self.m_utxo_cache⟩, ?_, ?_, ?_, ?_, ?_, ?_⟩
      · simp [session_impl.set_cached_utxos, Json.at_key, h, hn, bind,
          Except.bind, pure, Except.pure]
      · simp [session_impl.get_cached_utxos, map_find_assign_same]
      · simp [Json.find, h]
      · intro key _
        rfl
      · intro _
        rfl
      · simp only [Json.find, h]
        intro he
        have : out = Json.null := by simpa using he
        simp [this, Json.is_null] at hn
  | null => simp [Json.find] at h
  | boolean b => simp [Json.find] at h
  | number z => simp [Json.find] at h
  | string str => simp [Json.find] at h
  | array xs => simp [Json.find] at h

/-- A null "unspent_outputs" stored for subaccount 3 at depth 1 of an empty
cache is read back as the empty object. -/
theorem set_then_get_cached_utxos_witness :
    ∃ entry after,
      session_impl.set_cached_utxos ⟨Json.null, false, []⟩ 3 1
          (Json.object [("unspent_outputs", Json.null)]) = .ok (some entry, after)
      ∧ after.get_cached_utxos 3 1 = some entry
      ∧ entry.find "unspent_outputs" = some Json.empty_object := by
  obtain ⟨entry, after, h1, h2, h3, _⟩ :=
    set_then_get_cached_utxos ⟨Json.null, false, []⟩ 3 1
      (Json.object [("unspent_outputs", Json.null)]) Json.null rfl
  exact ⟨entry, after, h1, h2, h3⟩

/-- C2: `remove_cached_utxos` with the empty list leaves an empty cache; with a
list that is not empty it keeps exactly the entries whose subaccount is not
listed, each with its value, so that a lookup of a listed subaccount misses at
every depth and a lookup of any other subaccount answers as before. -/
theorem remove_cached_utxos_effect (self : session_impl) :
    (self.remove_cached_utxos []).m_utxo_cache = []
    ∧ ∀ (a : Nat) (rest : List Nat),
        (self.remove_cached_utxos (a :: rest)).m_utxo_cache
            = self.m_utxo_cache.filter (fun p => decide (p.1.1 ∉ a :: rest))
        ∧ ∀ sa n, (self.remove_cached_utxos (a :: rest)).get_cached_utxos sa n
            = if sa ∈ a :: rest then none else self.get_cached_utxos sa n := by
  refine ⟨rfl, ?_⟩
  intro a rest
  have hfun : (fun p : (Nat × Nat) × Json => !((a :: rest).contains p.1.1))
      = (fun p => decide (p.1.1 ∉ a :: rest)) := by
    funext p
    by_cases hp : p.1.1 ∈ a :: rest
    · simp [hp]
    · simp [hp]
  constructor
  · simp only [session_impl.remove_cached_utxos, List.isEmpty_cons, Bool.false_eq_true, if_false]
    rw [hfun]
  · intro sa n
    simp only [session_impl.remove_cached_utxos, List.isEmpty_cons, Bool.false_eq_true, if_false,
      session_impl.get_cached_utxos]
    rw [map_find_filter_key (fun k : Nat × Nat => !((a :: rest).contains k.1)) (sa, n)
      self.m_utxo_cache]
    by_cases hp : sa ∈ a :: rest
    · simp [hp]
    · simp [hp]

/-- A call of `set_cached_utxos` on a document with an "unspent_outputs" field
returns a snapshot. -/
theorem set_cached_utxos_returns (self : session_impl) (sa n : Nat) (u out : Json)
    (h : u.find "unspent_outputs" = some out) :
    ∃ entry after, self.set_cached_utxos sa n u = .ok (some entry, after) := by
  cases u with
  | object kvs =>
    simp only [Json.find] at h
    cases hres : self.set_cached_utxos sa n (Json.object kvs) with
    | error e =>
      cases hn : out.is_null <;>
        simp [session_impl.set_cached_utxos, Json.at_key, h, hn, Json.assign_key, bind,
          Except.bind, pure, Except.pure] at hres
    | ok pa =>
      obtain ⟨r, after⟩ := pa
      obtain ⟨entry, hr, _⟩ := set_cached_utxos_stores self sa n _ r after hres
      subst hr
      exact ⟨entry, after, rfl⟩
  | null => simp [Json.find] at h
  | boolean b => simp [Json.find] at h
  | number z => simp [Json.find] at h
  | string str => simp [Json.find] at h
  | array xs => simp [Json.find] at h

/-- C3: `get_cached_utxos` answers for the exact key only: it returns the null
pointer when no entry is stored under (subaccount, num_confs); a call
`set_cached_utxos sa n u` on a document with an "unspent_outputs" field returns a
snapshot; and whenever the call returns, what it returns is a snapshot (not the
null pointer), a following `get_cached_utxos` returns that snapshot for (sa, n)
and its former answer for every other key, so that a snapshot stored at depth 0
is not the answer at depth 1, nor one stored at depth 1 the answer at depth 0. -/
theorem get_cached_utxos_exact_key (self : session_impl) (sa n : Nat) (u : Json) :
    (∀ sa2 n2, (∀ v, ((sa2, n2), v) ∉ self.m_utxo_cache) → self.get_cached_utxos sa2 n2 = none)
    ∧ (∀ out, u.find "unspent_outputs" = some out →
        ∃ entry after, self.set_cached_utxos sa n u = .ok (some entry, after))
    ∧ (∀ r after, self.set_cached_utxos sa n u = .ok (r, after) →
        ∃ entry, r = some entry
          ∧ after.get_cached_utxos sa n = some entry
          ∧ (∀ sa2 n2, after.get_cached_utxos sa2 n2
              = if (sa2, n2) = (sa, n) then some entry else self.get_cached_utxos sa2 n2)
          ∧ (n = 0 → after.get_cached_utxos sa 1 = self.get_cached_utxos sa 1)
          ∧ (n = 1 → after.get_cached_utxos sa 0 = self.get_cached_utxos sa 0)) := by
  refine ⟨?_, ?_, ?_⟩
  · intro sa2 n2 hno
    exact map_find_none_of_no_entry _ _ hno
  · intro out h
    exact set_cached_utxos_returns self sa n u out h
  · intro r after hset
    obtain ⟨entry, hr, hafter⟩ := set_cached_utxos_stores self sa n u r after hset
    have hkey : ∀ sa2 n2, after.get_cached_utxos sa2 n2
        = if (sa2, n2) = (sa, n) then some entry else self.get_cached_utxos sa2 n2 := by
      intro sa2 n2
      by_cases hk : (sa2, n2) = (sa, n)
      · simp only [session_impl.get_cached_utxos, hk, if_true, hafter]
        exact map_find_assign_same _ _ _ _
      · simp only [session_impl.get_cached_utxos, hk, if_false, hafter]
        exact map_find_assign_other _ _ _ _ _ hk
    refine ⟨entry, hr, ?_, hkey, ?_, ?_⟩
    · rw [hkey sa n]
      simp
    · intro hn
      rw [hkey sa 1]
      simp [hn]
    · intro hn
      rw [hkey sa 0]
      simp [hn]

/-- A document stored for subaccount 7 at depth 0 of an empty cache: the call
returns a snapshot, which is then returned at depth 0 and not at depth 1. -/
theorem get_cached_utxos_exact_key_witness :
    ∃ entry after,
      session_impl.set_cached_utxos ⟨Json.null, false, []⟩ 7 0
          (Json.object [("unspent_outputs", Json.array [])]) = .ok (some entry, after)
      ∧ after.get_cached_utxos 7 0 = some entry
      ∧ after.get_cached_utxos 7 1 = none := by
  obtain ⟨_, hreturns, hstored⟩ := get_cached_utxos_exact_key ⟨Json.null, false, []⟩ 7 0
    (Json.object [("unspent_outputs", Json.array [])])
  obtain ⟨entry, after, hset⟩ := hreturns (Json.array []) rfl
  obtain ⟨entry2, hr, hget, _, h01, _⟩ := hstored (some entry) after hset
  have he : entry = entry2 := Option.some.inj hr
  subst he
  exact ⟨entry, after, hset, hget, by rw [h01 rfl]; rfl⟩

/-! ## Credentials and device resolution -/

theorem of_pairs_watch_only (username password : Json) :
    Json.of_pairs [("username", username), ("password", password)]
      = Json.object [("password", password), ("username", username)] := rfl

theorem of_pairs_mnemonic (mnemonic seed : Json) :
    Json.of_pairs [("mnemonic", mnemonic), ("seed", seed)]
      = Json.object [("mnemonic", mnemonic), ("seed", seed)] := rfl

theorem of_pairs_seed (seed : Json) :
    Json.of_pairs [("seed", seed)] = Json.object [("seed", seed)] := rfl

/-- The three shapes of normalised credentials that are not empty. -/
theorem get_credentials_json_shape {Key : Type} (E : Primitives Key) (credentials c : Json)
    (hne : credentials.empty = false) (h : get_credentials_json E credentials = .ok c) :
    (∃ username password, credentials.find "username" = some username
        ∧ c = Json.object [("password", password), ("username", username)])
    ∨ (∃ mnemonic seed, credentials.find "username" = none
        ∧ E.bip39_mnemonic_to_seed mnemonic = .ok seed
        ∧ c = Json.object [("mnemonic", Json.string mnemonic), ("seed", Json.string (E.b2h seed))])
    ∨ (∃ seed_hex, credentials.find "username" = none
        ∧ c = Json.object [("seed", Json.string seed_hex)]) := by
  simp only [get_credentials_json, hne, Bool.false_eq_true, if_false] at h
  cases hu : credentials.find "username" with
  | some username =>
    simp only [hu] at h
    cases hp : credentials.at_key "password" with
    | error e => simp [hp] at h
    | ok password =>
      simp only [hp, Except.ok.injEq] at h
      exact Or.inl ⟨username, password, rfl, by rw [← h, of_pairs_watch_only]⟩
  | none =>
    simp only [hu] at h
    cases hm : credentials.find "mnemonic" with
    | none => simp [hm] at h
    | some mnemonic_j =>
      simp only [hm] at h
      cases hs : mnemonic_j.get_string with
      | error e => simp [hs] at h
      | ok mnemonic =>
        simp only [hs] at h
        by_cases hsp : mnemonic.data.contains ' ' = true
        · simp only [hsp, if_true] at h
          split at h
          · simp at h
          · rename_i plain hdec
            cases hseed : E.bip39_mnemonic_to_seed plain with
            | error e => simp [hseed] at h
            | ok seed =>
              simp only [hseed, Except.ok.injEq] at h
              exact Or.inr (Or.inl ⟨plain, seed, rfl, hseed, by rw [← h, of_pairs_mnemonic]⟩)
        · simp only [hsp, Bool.false_eq_true, if_false] at h
          split at h
          · simp only [Except.ok.injEq] at h
            exact Or.inr (Or.inr ⟨_, rfl, by rw [← h, of_pairs_seed]⟩)
          · simp at h

/-- Normalised credentials are empty only for empty credentials. -/
theorem get_credentials_json_nonempty {Key : Type} (E : Primitives Key) (credentials c : Json)
    (hne : credentials.empty = false) (h : get_credentials_json E credentials = .ok c) :
    c.empty = false := by
  rcases get_credentials_json_shape E credentials c hne h with
    ⟨_, _, _, hc⟩ | ⟨_, _, _, _, hc⟩ | ⟨_, _, hc⟩ <;> subst hc <;> rfl

/-- A device descriptor together with credentials is refused by the device
resolution. -/
theorem get_device_json_both (hw_device device c : Json)
    (hdev : hw_device.find "device" = some device) (hd : device.empty = false)
    (hc : c.empty = false) :
    get_device_json hw_device c
      = .error (.user_error "Hardware device and login credentials cannot be used together") := by
  cases hw_device with
  | object kvs =>
    simp only [Json.find] at hdev
    have hkvs : kvs.isEmpty = false := by
      cases kvs with
      | nil => simp [map_find] at hdev
      | cons a b => rfl
    have hhw : (Json.object kvs).empty = false := by simp [Json.empty, hkvs]
    have hch : get_device_json_choice (Json.object kvs) c
        = .error (.user_error "Hardware device and login credentials cannot be used together") := by
      simp only [get_device_json_choice, hhw, Json.value_json, hdev]
      simp [hd, hc]
    simp only [get_device_json, hch, bind, Except.bind]
  | null => simp [Json.find] at hdev
  | boolean b => simp [Json.find] at hdev
  | number z => simp [Json.find] at hdev
  | string str => simp [Json.find] at hdev
  | array xs => simp [Json.find] at hdev

theorem json_add_if_missing_object (kvs : List (String × Json)) (key : String) (d : Json) :
    ∃ kvs2, json_add_if_missing (Json.object kvs) key d true = .ok (Json.object kvs2)
      ∧ ∀ k, map_find k kvs2
          = if k = key then some (filled_value (map_find key kvs) d) else map_find k kvs := by
  cases hf : map_find key kvs with
  | none =>
    refine ⟨map_assign string_less key d kvs, ?_, ?_⟩
    · simp [json_add_if_missing, Json.find, hf, Json.assign_key]
    · intro k
      by_cases hk : k = key
      · subst hk
        simp [map_find_assign_same, filled_value]
      · simp [hk, map_find_assign_other _ _ _ _ _ hk]
  | some v =>
    cases hn : v.is_null with
    | true =>
      refine ⟨map_assign string_less key d kvs, ?_, ?_⟩
      · simp [json_add_if_missing, Json.find, hf, hn, Json.assign_key]
      · intro k
        by_cases hk : k = key
        · subst hk
          simp [map_find_assign_same, filled_value, hn]
        · simp [hk, map_find_assign_other _ _ _ _ _ hk]
    | false =>
      refine ⟨kvs, ?_, ?_⟩
      · simp [json_add_if_missing, Json.find, hf, hn]
      · intro k
        by_cases hk : k = key
        · subst hk
          simp [filled_value, hn, hf]
        · simp [hk]

/-- The six calls of `json_add_if_missing` succeed on an object, and give each of
the six fields its filled value and every other field its former value. -/
theorem get_device_json_fill_object (kvs : List (String × Json)) :
    ∃ kvs2, get_device_json_fill (Json.object kvs) = .ok (Json.object kvs2)
      ∧ ∀ k, map_find k kvs2
          = match device_default k with
            | some d => some (filled_value (map_find k kvs) d)
            | none => map_find k kvs := by
  obtain ⟨k1, e1, h1⟩ := json_add_if_missing_object kvs "supports_low_r" (Json.boolean false)
  obtain ⟨k2, e2, h2⟩ := json_add_if_missing_object k1 "supports_arbitrary_scripts"
    (Json.boolean false)
  obtain ⟨k3, e3, h3⟩ := json_add_if_missing_object k2 "supports_host_unblinding"
    (Json.boolean false)
  obtain ⟨k4, e4, h4⟩ := json_add_if_missing_object k3 "supports_liquid"
    (enum_json liquid_support_level.none)
  obtain ⟨k5, e5, h5⟩ := json_add_if_missing_object k4 "supports_ae_protocol"
    (enum_json ae_protocol_support_level.none)
  obtain ⟨k6, e6, h6⟩ := json_add_if_missing_object k5 "device_type" (Json.string "hardware")
  refine ⟨k6, ?_, ?_⟩
  · simp only [get_device_json_fill, bind, Except.bind, e1, e2, e3, e4, e5, e6]
  · intro k
    rw [h6 k, h5 k, h5 "device_type", h4 k, h4 "device_type", h4 "supports_ae_protocol",
      h3 k, h3 "device_type", h3 "supports_ae_protocol", h3 "supports_liquid",
      h2 k, h2 "device_type", h2 "supports_ae_protocol", h2 "supports_liquid",
      h2 "supports_host_unblinding",
      h1 k, h1 "device_type", h1 "supports_ae_protocol", h1 "supports_liquid",
      h1 "supports_host_unblinding", h1 "supports_arbitrary_scripts"]
    simp only [device_default]
    by_cases c6 : k = "device_type"
    · subst c6; simp
    · by_cases c5 : k = "supports_ae_protocol"
      · subst c5; simp
      · by_cases c4 : k = "supports_liquid"
        · subst c4; simp
        · by_cases c3 : k = "supports_host_unblinding"
          · subst c3; simp
          · by_cases c2 : k = "supports_arbitrary_scripts"
            · subst c2; simp
            · by_cases c1 : k = "supports_low_r"
              · subst c1; simp
              · simp [c1, c2, c3, c4, c5, c6]

/-- An explicit descriptor that is an object with a field is the descriptor
chosen when the credentials are empty. -/
theorem get_device_json_choice_explicit (hw_device c : Json) (kvs : List (String × Json))
    (hdev : hw_device.find "device" = some (Json.object kvs)) (hd : kvs ≠ [])
    (hc : c.empty = true) :
    get_device_json_choice hw_device c = .ok (Json.object kvs) := by
  cases hw_device with
  | object hw =>
    simp only [Json.find] at hdev
    have hhw : (Json.object hw).empty = false := by
      cases hw with
      | nil => simp [map_find] at hdev
      | cons a b => rfl
    have hde : (Json.object kvs).empty = false := by
      cases kvs with
      | nil => exact absurd rfl hd
      | cons a b => rfl
    simp only [get_device_json_choice, hhw, Json.value_json, hdev]
    simp [hde, hc]
  | null => simp [Json.find] at hdev
  | boolean b => simp [Json.find] at hdev
  | number z => simp [Json.find] at hdev
  | string str => simp [Json.find] at hdev
  | array xs => simp [Json.find] at hdev

/-- C4 (as amended): with a device document whose "device" member is not empty
and credentials that are not empty, the construction of a signer fails and no
signer is produced; the failure is the user error "Hardware device and login
credentials cannot be used together" when the normalisation of the credentials
succeeds, and the error of the normalisation when that fails. -/
theorem create_device_with_credentials {Key : Type} (E : Primitives Key)
    (net_params : network_parameters) (hw_device device credentials : Json)
    (hdev : hw_device.find "device" = some device) (hd : device.empty = false)
    (hc : credentials.empty = false) :
    (∃ e, signer.create E net_params hw_device credentials = .error e)
    ∧ (∀ c, get_credentials_json E credentials = .ok c →
        signer.create E net_params hw_device credentials
          = .error (.user_error "Hardware device and login credentials cannot be used together"))
    ∧ (∀ e, get_credentials_json E credentials = .error e →
        signer.create E net_params hw_device credentials = .error e) := by
  have hok : ∀ c, get_credentials_json E credentials = .ok c →
      signer.create E net_params hw_device credentials
        = .error (.user_error "Hardware device and login credentials cannot be used together") := by
    intro c hcred
    have hne := get_credentials_json_nonempty E credentials c hc hcred
    have hdj := get_device_json_both hw_device device c hdev hd hne
    simp only [signer.create, bind, Except.bind, hcred, hdj]
  have herr : ∀ e, get_credentials_json E credentials = .error e →
      signer.create E net_params hw_device credentials = .error e := by
    intro e hcred
    simp only [signer.create, bind, Except.bind, hcred]
  refine ⟨?_, hok, herr⟩
  cases hcred : get_credentials_json E credentials with
  | error e => exact ⟨e, herr e hcred⟩
  | ok c => exact ⟨_, hok c hcred⟩

/-- A device named Ledger together with a mnemonic of three words is refused
with the user error of the device resolution. -/
theorem create_device_with_credentials_witness :
    signer.create test_primitives ⟨true, false, 0⟩
        (Json.object [("device", Json.object [("name", Json.string "Ledger")])])
        (Json.object [("mnemonic", Json.string "abandon ability able")])
      = .error (.user_error "Hardware device and login credentials cannot be used together") :=
  (create_device_with_credentials test_primitives ⟨true, false, 0⟩
    (Json.object [("device", Json.object [("name", Json.string "Ledger")])])
    (Json.object [("name", Json.string "Ledger")])
    (Json.object [("mnemonic", Json.string "abandon ability able")]) rfl rfl rfl).2.1 _ rfl

/-- C4 fails as stated: a device named Ledger together with the credentials
{username: satoshi}, which lack a password, makes the construction fail with the
`out_of_range` exception of the JSON library, which is not a user error. -/
theorem create_device_with_credentials_counterexample :
    (Json.object [("device", Json.object [("name", Json.string "Ledger")])]).find "device"
        = some (Json.object [("name", Json.string "Ledger")])
    ∧ (Json.object [("name", Json.string "Ledger")]).empty = false
    ∧ (Json.object [("username", Json.string "satoshi")]).empty = false
    ∧ signer.create test_primitives ⟨true, false, 0⟩
        (Json.object [("device", Json.object [("name", Json.string "Ledger")])])
        (Json.object [("username", Json.string "satoshi")]) = .error .json_out_of_range
    ∧ ¬ ∃ what, signer.create test_primitives ⟨true, false, 0⟩
        (Json.object [("device", Json.object [("name", Json.string "Ledger")])])
        (Json.object [("username", Json.string "satoshi")]) = .error (.user_error what) := by
  have h : signer.create test_primitives ⟨true, false, 0⟩
        (Json.object [("device", Json.object [("name", Json.string "Ledger")])])
        (Json.object [("username", Json.string "satoshi")]) = .error .json_out_of_range := rfl
  refine ⟨rfl, rfl, rfl, h, ?_⟩
  rintro ⟨what, hw⟩
  rw [h] at hw
  cases hw

/-- C5: an explicit descriptor that is an object with a field, supplied with
empty credentials, whose device_type is "hardware", absent or null: the device
resolution fails with a user error when "name" is absent or the empty string;
when "name" is a string that is not empty it succeeds and returns the
descriptor with its defaults filled in: the name and every field of the
descriptor that is not null are kept, and device_type is "hardware". -/
theorem get_device_json_hardware_name (hw_device c : Json) (kvs : List (String × Json))
    (hdev : hw_device.find "device" = some (Json.object kvs)) (hd : kvs ≠ [])
    (hc : c.empty = true)
    (htype : map_find "device_type" kvs = none ∨ map_find "device_type" kvs = some Json.null
      ∨ map_find "device_type" kvs = some (Json.string "hardware")) :
    ((map_find "name" kvs = none ∨ map_find "name" kvs = some (Json.string "")) →
      get_device_json hw_device c
        = .error (.user_error "Hardware device JSON requires a non-empty \x27name\x27 element"))
    ∧ (∀ name, map_find "name" kvs = some (Json.string name) → name ≠ "" →
        ∃ r, get_device_json hw_device c = .ok r
          ∧ r.find "name" = some (Json.string name)
          ∧ r.find "device_type" = some (Json.string "hardware")
          ∧ (∀ k v, map_find k kvs = some v → v.is_null = false → r.find k = some v)
          ∧ (∀ k, r.find k = match device_default k with
              | some d => some (filled_value (map_find k kvs) d)
              | none => map_find k kvs)) := by
  obtain ⟨kvs2, hfill, hfields⟩ := get_device_json_fill_object kvs
  have hchoice := get_device_json_choice_explicit hw_device c kvs hdev hd hc
  have htype2 : map_find "device_type" kvs2 = some (Json.string "hardware") := by
    rw [hfields "device_type"]
    rcases htype with h | h | h <;> simp [device_default, filled_value, h, Json.is_null]
  have hname2 : map_find "name" kvs2 = map_find "name" kvs := by
    rw [hfields "name"]
    simp [device_default]
  have hrun : get_device_json hw_device c
      = match (Json.object kvs2).value_string "name" "" with
        | .error e => .error e
        | .ok name =>
          if name = "" then
            .error (.user_error "Hardware device JSON requires a non-empty \x27name\x27 element")
          else .ok (Json.object kvs2) := by
    simp only [get_device_json, bind, Except.bind, hchoice, hfill, Json.at_key, htype2,
      Json.eq_string]
    simp only [decide_True, if_true]
    cases (Json.object kvs2).value_string "name" "" with
    | error e => rfl
    | ok v => by_cases hv : v = "" <;> simp [hv]
  constructor
  · intro hn
    rw [hrun]
    rcases hn with h | h <;> simp [Json.value_string, hname2, h, Json.get_string]
  · intro name hn hne
    refine ⟨Json.object kvs2, ?_, ?_, ?_, ?_, ?_⟩
    · rw [hrun]
      simp [Json.value_string, hname2, hn, Json.get_string, hne]
    · simp [Json.find, hname2, hn]
    · simp [Json.find, htype2]
    · intro k v hk hv
      simp only [Json.find]
      rw [hfields k]
      cases hdflt : device_default k with
      | none => simp [hk]
      | some d => simp [filled_value, hk, hv]
    · intro k
      simp only [Json.find]
      exact hfields k

/-- The descriptor {name: Ledger} resolves to a hardware device named Ledger. -/
theorem get_device_json_hardware_name_witness :
    ∃ r, get_device_json (Json.object [("device", Json.object [("name", Json.string "Ledger")])])
        Json.null = .ok r
      ∧ r.find "name" = some (Json.string "Ledger")
      ∧ r.find "device_type" = some (Json.string "hardware") := by
  obtain ⟨r, h1, h2, h3, _⟩ := (get_device_json_hardware_name
    (Json.object [("device", Json.object [("name", Json.string "Ledger")])]) Json.null
    [("name", Json.string "Ledger")] rfl (by simp) rfl (Or.inl rfl)).2 "Ledger" rfl (by decide)
  exact ⟨r, h1, h2, h3⟩

/-! ## The constructor of the signer -/

/-- Credentials with a seed and without a username, and no explicit device,
resolve to the software profile. -/
theorem get_device_json_software (hw_device c d : Json) (hne : c.empty = false)
    (hu : c.contains "username" = false) (hs : c.contains "seed" = true)
    (h : get_device_json hw_device c = .ok d) : d = SOFTWARE_DEVICE_JSON := by
  have hchoice : get_device_json_choice hw_device c = .ok SOFTWARE_DEVICE_JSON := by
    cases hch : get_device_json_choice hw_device c with
    | error e => simp [get_device_json, bind, Except.bind, hch] at h
    | ok ret =>
      simp only [get_device_json_choice] at hch
      split at hch
      · simp at hch
      · rename_i device _
        cases hde : device.empty with
        | false => simp [hde, hne] at hch
        | true =>
          simp only [hde, hu, hs, Bool.not_true, Bool.false_eq_true, if_false, if_true,
            Except.ok.injEq] at hch
          rw [hch]
  have hrun : get_device_json hw_device c = .ok SOFTWARE_DEVICE_JSON := by
    simp only [get_device_json, bind, Except.bind, hchoice]
    rfl
  rw [hrun] at h
  exact (Except.ok.inj h).symm

/-- Watch-only credentials and no device document resolve to the watch-only
profile. -/
theorem get_device_json_watch_only (hw_device username password : Json)
    (hhw : hw_device.empty = true) :
    get_device_json hw_device (Json.object [("password", password), ("username", username)])
      = .ok WATCH_ONLY_DEVICE_JSON := by
  have hchoice : get_device_json_choice hw_device
      (Json.object [("password", password), ("username", username)])
        = .ok WATCH_ONLY_DEVICE_JSON := by
    simp only [get_device_json_choice, hhw, if_true]
    simp [Json.empty_object, Json.empty, Json.contains, Json.find, map_find]
  simp only [get_device_json, bind, Except.bind, hchoice]
  rfl

/-- The resolved descriptor of an explicit object descriptor is an object whose
fields are the filled fields of the descriptor. -/
theorem get_device_json_explicit_fields (hw_device c d : Json) (kvs : List (String × Json))
    (hdev : hw_device.find "device" = some (Json.object kvs)) (hd : kvs ≠ [])
    (hc : c.empty = true) (h : get_device_json hw_device c = .ok d) :
    ∀ k, d.find k = match device_default k with
      | some dflt => some (filled_value (map_find k kvs) dflt)
      | none => map_find k kvs := by
  obtain ⟨kvs2, hfill, hfields⟩ := get_device_json_fill_object kvs
  have hchoice := get_device_json_choice_explicit hw_device c kvs hdev hd hc
  have hd2 : d = Json.object kvs2 := by
    simp only [get_device_json, bind, Except.bind, hchoice, hfill] at h
    split at h
    · simp at h
    · split at h
      · split at h
        · simp at h
        · split at h
          · simp at h
          · exact (Except.ok.inj h).symm
      · exact (Except.ok.inj h).symm
  intro k
  rw [hd2]
  exact hfields k

theorem software_liquid_support :
    signer.get_liquid_support_of SOFTWARE_DEVICE_JSON ≠ .ok liquid_support_level.none := by
  have hl : signer.get_liquid_support_of SOFTWARE_DEVICE_JSON = .ok liquid_support_level.lite := rfl
  rw [hl]
  simp [liquid_support_level.lite, liquid_support_level.none]

/-- Normalised credentials of a signer whose device reports no Liquid support
hold no seed. -/
theorem no_seed_of_liquid_none {Key : Type} (E : Primitives Key) (hw_device credentials c d : Json)
    (hcred : get_credentials_json E credentials = .ok c)
    (hdev : get_device_json hw_device c = .ok d)
    (hnone : signer.get_liquid_support_of d = .ok liquid_support_level.none) :
    c.find "seed" = none := by
  cases hemp : credentials.empty with
  | true =>
    simp only [get_credentials_json, hemp, if_true, Except.ok.injEq] at hcred
    rw [← hcred]
    rfl
  | false =>
    rcases get_credentials_json_shape E credentials c hemp hcred with
      ⟨_, _, _, hc⟩ | ⟨_, _, _, _, hc⟩ | ⟨_, _, hc⟩
    · subst hc
      simp [Json.find, map_find]
    · subst hc
      have hsoft : d = SOFTWARE_DEVICE_JSON := by
        refine get_device_json_software hw_device _ d ?_ ?_ ?_ hdev
        · rfl
        · simp [Json.contains, Json.find, map_find]
        · simp [Json.contains, Json.find, map_find]
      subst hsoft
      exact absurd hnone software_liquid_support
    · subst hc
      have hsoft : d = SOFTWARE_DEVICE_JSON := by
        refine get_device_json_software hw_device _ d ?_ ?_ ?_ hdev
        · rfl
        · simp [Json.contains, Json.find, map_find]
        · simp [Json.contains, Json.find, map_find]
      subst hsoft
      exact absurd hnone software_liquid_support

/-- C6: when the resolved device descriptor reports `supports_liquid` = none, the
construction of a signer fails with the user error
`id_the_hardware_wallet_you_are` on a Liquid network, and on any other network
the same input passes the check and the signer is constructed.  A hardware
descriptor that omits `supports_liquid` and watch-only credentials are such
inputs. -/
theorem create_liquid_support_none {Key : Type} (E : Primitives Key)
    (net_params : network_parameters) (hw_device credentials : Json) :
    (∀ c d, get_credentials_json E credentials = .ok c → get_device_json hw_device c = .ok d →
      signer.get_liquid_support_of d = .ok liquid_support_level.none →
        (net_params.is_liquid = true →
          signer.create E net_params hw_device credentials
            = .error (.user_error id_the_hardware_wallet_you_are))
        ∧ (net_params.is_liquid = false →
          signer.create E net_params hw_device credentials
            = .ok ⟨net_params.is_main_net, false, net_params.btc_version, c, d, none, none, []⟩))
    ∧ (∀ kvs d, credentials.empty = true → hw_device.find "device" = some (Json.object kvs) →
        kvs ≠ [] → map_find "supports_liquid" kvs = none →
        get_device_json hw_device Json.null = .ok d → net_params.is_liquid = true →
          signer.create E net_params hw_device credentials
            = .error (.user_error id_the_hardware_wallet_you_are))
    ∧ (∀ username password, hw_device.empty = true →
        credentials.find "username" = some username →
        credentials.find "password" = some password → net_params.is_liquid = true →
          signer.create E net_params hw_device credentials
            = .error (.user_error id_the_hardware_wallet_you_are)) := by
  have hliquid : ∀ c d, get_credentials_json E credentials = .ok c →
      get_device_json hw_device c = .ok d →
      signer.get_liquid_support_of d = .ok liquid_support_level.none →
      net_params.is_liquid = true →
        signer.create E net_params hw_device credentials
          = .error (.user_error id_the_hardware_wallet_you_are) := by
    intro c d hcred hdev hnone hl
    simp only [signer.create, bind, Except.bind, hcred, hdev, hl, if_true, hnone, pure,
      Except.pure, decide_True]
  refine ⟨?_, ?_, ?_⟩
  · intro c d hcred hdev hnone
    refine ⟨hliquid c d hcred hdev hnone, ?_⟩
    intro hl
    have hseed := no_seed_of_liquid_none E hw_device credentials c d hcred hdev hnone
    simp only [signer.create, bind, Except.bind, hcred, hdev, hl, Bool.false_eq_true, if_false,
      pure, Except.pure, hseed]
  · intro kvs d hemp hdev hd hsl hres hl
    have hcred : get_credentials_json E credentials = .ok Json.null := by
      simp [get_credentials_json, hemp]
    have hfields := get_device_json_explicit_fields hw_device Json.null d kvs hdev hd rfl hres
    have hnone : signer.get_liquid_support_of d = .ok liquid_support_level.none := by
      have hf := hfields "supports_liquid"
      simp only [device_default, hsl, filled_value] at hf
      cases d with
      | object dk =>
        simp only [Json.find] at hf
        have hf2 : map_find "supports_liquid" dk = some (enum_json liquid_support_level.none) := by
          rw [hf]
          rfl
        simp only [signer.get_liquid_support_of, Json.subscript, hf2, bind, Except.bind]
        rfl
      | null => simp [Json.find] at hf
      | boolean b => simp [Json.find] at hf
      | number z => simp [Json.find] at hf
      | string str => simp [Json.find] at hf
      | array xs => simp [Json.find] at hf
    exact hliquid Json.null d hcred hres hnone hl
  · intro username password hhw hu hp hl
    have hcred : get_credentials_json E credentials
        = .ok (Json.object [("password", password), ("username", username)]) := by
      cases credentials with
      | object ck =>
        simp only [Json.find] at hu hp
        have hne : (Json.object ck).empty = false := by
          cases ck with
          | nil => simp [map_find] at hu
          | cons a b => rfl
        simp only [get_credentials_json, hne, Bool.false_eq_true, if_false, Json.find, hu,
          Json.at_key, hp, of_pairs_watch_only]
      | null => simp [Json.find] at hu
      | boolean b => simp [Json.find] at hu
      | number z => simp [Json.find] at hu
      | string str => simp [Json.find] at hu
      | array xs => simp [Json.find] at hu
    exact hliquid _ WATCH_ONLY_DEVICE_JSON hcred
      (get_device_json_watch_only hw_device username password hhw) rfl hl

/-- Watch-only credentials are refused on a Liquid network. -/
theorem create_liquid_support_none_witness :
    signer.create test_primitives ⟨true, true, 0⟩ Json.null
        (Json.object [("username", Json.string "satoshi"), ("password", Json.string "secret")])
      = .error (.user_error id_the_hardware_wallet_you_are) :=
  (create_liquid_support_none test_primitives ⟨true, true, 0⟩ Json.null
    (Json.object [("username", Json.string "satoshi"), ("password", Json.string "secret")])).2.2
    (Json.string "satoshi") (Json.string "secret") rfl rfl rfl rfl

/-! ## Hexadecimal seeds -/

theorem hex_char_cases (c : Char) (h : c ∈ hex_chars) :
    c.utf8Size = 1 ∧ c ≠ ' ' ∧ c ≠ 'X' :=
  (by decide : ∀ d ∈ hex_chars, d.utf8Size = 1 ∧ d ≠ ' ' ∧ d ≠ 'X') c h

theorem utf8Len_hex (l : List Char) (h : ∀ c ∈ l, c ∈ hex_chars) : String.utf8Len l = l.length := by
  induction l with
  | nil => rfl
  | cons a t ih =>
    have ha := (hex_char_cases a (h a (List.mem_cons_self a t))).1
    have ht := ih (fun c hc => h c (List.mem_cons_of_mem a hc))
    simp [String.utf8Len_cons, ha, ht]

/-- C7: for a string `s` of 128 hexadecimal characters, credentials without a
username whose mnemonic is `s` followed by the sentinel X normalise to the
document {seed: s}: it has no mnemonic field, and `s` has 128 characters, none of
them the sentinel. -/
theorem get_credentials_json_hex_seed {Key : Type} (E : Primitives Key) (credentials : Json)
    (s : String) (hlen : s.length = 128) (hhex : is_hex s)
    (hu : credentials.find "username" = none)
    (hm : credentials.find "mnemonic" = some (Json.string (s ++ "X"))) :
    get_credentials_json E credentials = .ok (Json.object [("seed", Json.string s)])
    ∧ (Json.object [("seed", Json.string s)]).find "mnemonic" = none
    ∧ (Json.object [("seed", Json.string s)]).find "seed" = some (Json.string s)
    ∧ s.length = 128 ∧ 'X' ∉ s.data := by
  have hnox : 'X' ∉ s.data := fun hx => (hex_char_cases 'X' (hhex 'X' hx)).2.2 rfl
  have hnosp : ' ' ∉ s.data := fun hx => (hex_char_cases ' ' (hhex ' ' hx)).2.1 rfl
  have hdata : (s ++ "X").data = s.data ++ ['X'] := rfl
  have hsp : (s ++ "X").data.contains ' ' = false := by
    rw [hdata]
    simp [hnosp]
  have hsize : (s ++ "X").utf8ByteSize = 129 := by
    have h1 : (s ++ "X").utf8ByteSize = String.utf8Len (s.data ++ ['X']) := rfl
    have h2 : s.data.length = 128 := hlen
    rw [h1, String.utf8Len_append, utf8Len_hex s.data hhex, h2]
    rfl
  have hlast : (s ++ "X").data.getLast? = some 'X' := by
    rw [hdata]
    simp
  have hpop : String.mk (s ++ "X").data.dropLast = s := by
    rw [hdata]
    simp
  refine ⟨?_, by simp [Json.find, map_find], by simp [Json.find, map_find], hlen, hnox⟩
  cases credentials with
  | object ck =>
    have hne : (Json.object ck).empty = false := by
      cases ck with
      | nil => simp [Json.find, map_find] at hm
      | cons a b => rfl
    simp only [get_credentials_json, hne, Bool.false_eq_true, if_false, hu, hm, Json.get_string,
      hsp, hsize, hlast, hpop, and_self, if_true, of_pairs_seed]
  | null => simp [Json.find] at hm
  | boolean b => simp [Json.find] at hm
  | number z => simp [Json.find] at hm
  | string str => simp [Json.find] at hm
  | array xs => simp [Json.find] at hm

/-- The mnemonic of 128 letters a followed by X is the seed of 128 letters a. -/
theorem get_credentials_json_hex_seed_witness :
    get_credentials_json test_primitives
        (Json.object [("mnemonic", Json.string (String.mk (List.replicate 128 'a') ++ "X"))])
      = .ok (Json.object [("seed", Json.string (String.mk (List.replicate 128 'a')))]) :=
  (get_credentials_json_hex_seed test_primitives
    (Json.object [("mnemonic", Json.string (String.mk (List.replicate 128 'a') ++ "X"))])
    (String.mk (List.replicate 128 'a')) rfl
    (by
      intro c hc
      have hca : c = 'a' := List.eq_of_mem_replicate hc
      subst hca
      decide)
    rfl rfl).1

/-! ## Mnemonic export and import -/

/-- A constructed signer holds the normalised credentials and the descriptor
resolved from them. -/
theorem create_ok {Key : Type} (E : Primitives Key) (net_params : network_parameters)
    (hw_device credentials : Json) (self : signer Key)
    (h : signer.create E net_params hw_device credentials = .ok self) :
    get_credentials_json E credentials = .ok self.m_credentials
    ∧ get_device_json hw_device self.m_credentials = .ok self.m_device := by
  simp only [signer.create, bind, Except.bind, pure, Except.pure] at h
  cases hc : get_credentials_json E credentials with
  | error e => simp [hc] at h
  | ok c =>
    simp only [hc] at h
    cases hd : get_device_json hw_device c with
    | error e => simp [hd] at h
    | ok d =>
      simp only [hd] at h
      repeat' (split at h)
      all_goals first
        | (have hs := Except.ok.inj h
           subst hs
           exact ⟨rfl, hd⟩)
        | simp at h

theorem map_find_emplace {κ ν : Type} [DecidableEq κ] (less : κ → κ → Bool) (k k2 : κ) (v : ν)
    (m : List (κ × ν)) :
    map_find k (map_emplace less k2 v m).1
      = if k = k2 then some ((map_find k2 m).getD v) else map_find k m := by
  cases hf : map_find k2 m with
  | some w =>
    by_cases hk : k = k2
    · subst hk
      simp [map_emplace, hf]
    · simp [map_emplace, hf, hk]
  | none =>
    by_cases hk : k = k2
    · subst hk
      simp [map_emplace, hf, map_find_assign_same]
    · simp [map_emplace, hf, hk, map_find_assign_other _ _ _ _ _ hk]

theorem map_emplace_present {κ ν : Type} [DecidableEq κ] (less : κ → κ → Bool) (k : κ) (v w : ν)
    (m : List (κ × ν)) (h : map_find k m = some w) : map_emplace less k v m = (m, false) := by
  simp [map_emplace, h]

theorem with_cache_self {Key : Type} (self : signer Key) :
    self.with_cache self.m_cached_bip32_xpubs = self := by
  cases self
  rfl

/-- A call of `get_bip32_xpub` that fails leaves the signer as it was, and a call
that returns leaves the returned string cached under the path. -/
theorem get_bip32_xpub_outcome {Key : Type} (E : Primitives Key) (self : signer Key)
    (path : List Nat) :
    (∀ e, (signer.get_bip32_xpub E self path).1 = .error e →
      (signer.get_bip32_xpub E self path).2 = self)
    ∧ (∀ r, (signer.get_bip32_xpub E self path).1 = .ok r →
      map_find path (signer.get_bip32_xpub E self path).2.m_cached_bip32_xpubs = some r) := by
  unfold signer.get_bip32_xpub
  cases hf : map_find path self.m_cached_bip32_xpubs with
  | some cached =>
    refine ⟨fun e he => rfl, fun r hr => ?_⟩
    simp only [Except.ok.injEq] at hr
    simp [hf, hr]
  | none =>
    cases hmk : self.m_master_key with
    | none => exact ⟨fun e he => rfl, fun r hr => by simp at hr⟩
    | some master =>
      by_cases hp : path = []
      · subst hp
        simp only [List.isEmpty_nil, Bool.not_true, Bool.false_eq_true, if_false]
        cases hl : derive_login_bip32_xpub E master with
        | error e => exact ⟨fun e he => rfl, fun r hr => by simp at hr⟩
        | ok login =>
          simp only []
          cases hser : E.bip32_key_serialize master BIP32_FLAG_KEY_PUBLIC with
          | error e => exact ⟨fun e he => rfl, fun r hr => by simp at hr⟩
          | ok bytes =>
            simp only []
            cases hb : E.base58check_from_bytes bytes with
            | error e => exact ⟨fun e he => rfl, fun r hr => by simp at hr⟩
            | ok ret =>
              simp only []
              by_cases hlogin : login = ""
              · simp only [hlogin, ne_eq, not_true_eq_false, if_false]
                refine ⟨fun e he => by simp at he, fun r hr => ?_⟩
                simp only [Except.ok.injEq] at hr
                simp [signer.with_cache, map_find_emplace, hf, hr]
              · simp only [ne_eq, hlogin, not_false_eq_true, if_true]
                refine ⟨fun e he => by simp at he, fun r hr => ?_⟩
                simp only [Except.ok.injEq] at hr
                simp [signer.with_cache, map_find_emplace, hf, hr, LOGIN_PATH]
      · have hne : path.isEmpty = false := by
          cases path with
          | nil => exact absurd rfl hp
          | cons a b => rfl
        simp only [hne, Bool.not_false, if_true]
        cases hd : derive E master path BIP32_FLAG_KEY_PRIVATE with
        | error e => exact ⟨fun e he => rfl, fun r hr => by simp at hr⟩
        | ok derived =>
          simp only []
          cases hser : E.bip32_key_serialize derived BIP32_FLAG_KEY_PUBLIC with
          | error e => exact ⟨fun e he => rfl, fun r hr => by simp at hr⟩
          | ok bytes =>
            simp only []
            cases hb : E.base58check_from_bytes bytes with
            | error e => exact ⟨fun e he => rfl, fun r hr => by simp at hr⟩
            | ok ret =>
              simp only [ne_eq, not_true_eq_false, if_false]
              refine ⟨fun e he => by simp at he, fun r hr => ?_⟩
              simp only [Except.ok.injEq] at hr
              simp [signer.with_cache, map_find_emplace, hf, hr]

/-- C9: a second call of `get_bip32_xpub` with the same path has the outcome of
the first and leaves the signer as the first call left it; when the first call
returned a string, the second returns that string from the cache, and caching
any other string under the path with `cache_bip32_xpub` then fails the runtime
assertion. -/
theorem get_bip32_xpub_twice {Key : Type} (E : Primitives Key) (self : signer Key)
    (path : List Nat) :
    signer.get_bip32_xpub E (signer.get_bip32_xpub E self path).2 path
      = signer.get_bip32_xpub E self path
    ∧ ∀ r, (signer.get_bip32_xpub E self path).1 = .ok r →
        map_find path (signer.get_bip32_xpub E self path).2.m_cached_bip32_xpubs = some r
        ∧ signer.get_bip32_xpub E (signer.get_bip32_xpub E self path).2 path
            = (.ok r, (signer.get_bip32_xpub E self path).2)
        ∧ ∀ x, x ≠ r →
            signer.cache_bip32_xpub E (signer.get_bip32_xpub E self path).2 path x
              = (.error .assertion_error, (signer.get_bip32_xpub E self path).2) := by
  obtain ⟨herr, hok⟩ := get_bip32_xpub_outcome E self path
  have hsecond : ∀ r, (signer.get_bip32_xpub E self path).1 = .ok r →
      signer.get_bip32_xpub E (signer.get_bip32_xpub E self path).2 path
        = (.ok r, (signer.get_bip32_xpub E self path).2) := by
    intro r hr
    have hfind := hok r hr
    generalize (signer.get_bip32_xpub E self path).2 = after at hfind
    simp [signer.get_bip32_xpub, hfind]
  constructor
  · cases hres : (signer.get_bip32_xpub E self path).1 with
    | error e => rw [herr e hres]
    | ok r =>
      rw [hsecond r hres]
      exact Prod.ext hres.symm rfl
  · intro r hr
    refine ⟨hok r hr, hsecond r hr, ?_⟩
    intro x hx
    have hfind := hok r hr
    generalize (signer.get_bip32_xpub E self path).2 = after at hfind
    have hne : ¬ r = x := fun h => hx h.symm
    simp [signer.cache_bip32_xpub, map_emplace_present lex_less path x r _ hfind, hfind, hne,
      with_cache_self]

/-- The signer of the mnemonic "abandon ability able" derives the key of the path
[1, 2] once: the second call returns the cached string of 23 letters, and
caching another string under the path fails the assertion. -/
theorem get_bip32_xpub_twice_witness :
    (signer.get_bip32_xpub test_primitives
        (signer.get_bip32_xpub test_primitives
          ⟨true, false, 0,
            Json.object [("mnemonic", Json.string "abandon ability able"),
              ("seed", Json.string "babaabaabababababaab")],
            SOFTWARE_DEVICE_JSON, some 20, none, []⟩ [1, 2]).2 [1, 2]).1
      = .ok (String.mk (List.replicate 23 'x'))
    ∧ (signer.cache_bip32_xpub test_primitives
        (signer.get_bip32_xpub test_primitives
          ⟨true, false, 0,
            Json.object [("mnemonic", Json.string "abandon ability able"),
              ("seed", Json.string "babaabaabababababaab")],
            SOFTWARE_DEVICE_JSON, some 20, none, []⟩ [1, 2]).2 [1, 2] "xpub").1
      = .error .assertion_error := by
  obtain ⟨_, h2, h3⟩ := (get_bip32_xpub_twice test_primitives
    ⟨true, false, 0,
      Json.object [("mnemonic", Json.string "abandon ability able"),
        ("seed", Json.string "babaabaabababababaab")],
      SOFTWARE_DEVICE_JSON, some 20, none, []⟩ [1, 2]).2 (String.mk (List.replicate 23 'x')) rfl
  constructor
  · rw [h2]
  · rw [h3 "xpub" (by decide)]

/-- C10 does not hold of the code: a signer constructed for the hardware device
Ledger is given, as master xpub, a string that does not parse as an extended
key.  The first `cache_bip32_xpub(EMPTY_PATH, ...)` stores the string and then
fails in `bip32_public_key_from_bip32_xpub`; the second call with the same string
returns "not updated" without an error, and the login path is not cached
although the empty path is. -/
theorem cache_bip32_xpub_master_without_login :
    ∃ fresh : signer Nat,
      signer.create test_primitives ⟨true, false, 0⟩
          (Json.object [("device", Json.object [("name", Json.string "Ledger")])]) Json.null
        = .ok fresh
      ∧ fresh.m_cached_bip32_xpubs = []
      ∧ (signer.cache_bip32_xpub test_primitives fresh EMPTY_PATH "not an xpub").1
          = .error (.external "not an extended key")
      ∧ (signer.cache_bip32_xpub test_primitives
          (signer.cache_bip32_xpub test_primitives fresh EMPTY_PATH "not an xpub").2
          EMPTY_PATH "not an xpub").1 = .ok false
      ∧ signer.has_bip32_xpub (signer.cache_bip32_xpub test_primitives
          (signer.cache_bip32_xpub test_primitives fresh EMPTY_PATH "not an xpub").2
          EMPTY_PATH "not an xpub").2 LOGIN_PATH = false
      ∧ signer.has_bip32_xpub (signer.cache_bip32_xpub test_primitives
          (signer.cache_bip32_xpub test_primitives fresh EMPTY_PATH "not an xpub").2
          EMPTY_PATH "not an xpub").2 EMPTY_PATH = true := by
  refine ⟨⟨true, false, 0, Json.null, _, none, none, []⟩, rfl, rfl, rfl, rfl, rfl, rfl⟩

/-! ## Population of the xpub cache from outside -/

theorem map_emplace_absent {κ ν : Type} [DecidableEq κ] (less : κ → κ → Bool) (k : κ) (v : ν)
    (m : List (κ × ν)) (h : map_find k m = none) :
    map_emplace less k v m = (map_assign less k v m, true) := by
  simp [map_emplace, h]

theorem isEmpty_of_ne_nil (path : List Nat) (h : path ≠ []) : path.isEmpty = false := by
  cases path with
  | nil => exact absurd rfl h
  | cons a b => rfl

/-- The call of `cache_bip32_xpub` on a path that is not cached, in terms of the
parse of the xpub and the derivation of the login key. -/
theorem cache_bip32_xpub_absent {Key : Type} (E : Primitives Key) (self : signer Key)
    (path : List Nat) (x : String) (h : map_find path self.m_cached_bip32_xpubs = none) :
    signer.cache_bip32_xpub E self path x
      = if path.isEmpty then
          match E.bip32_public_key_from_bip32_xpub x with
          | .error e =>
            (.error e, self.with_cache (map_assign lex_less path x self.m_cached_bip32_xpubs))
          | .ok master_pubkey =>
            match derive_login_bip32_xpub E master_pubkey with
            | .error e =>
              (.error e, self.with_cache (map_assign lex_less path x self.m_cached_bip32_xpubs))
            | .ok login =>
              (.ok true, self.with_cache (map_emplace lex_less LOGIN_PATH login
                (map_assign lex_less path x self.m_cached_bip32_xpubs)).1)
        else (.ok true, self.with_cache (map_assign lex_less path x self.m_cached_bip32_xpubs)) := by
  simp only [signer.cache_bip32_xpub, map_emplace_absent lex_less path x _ h, Bool.not_true,
    Bool.false_eq_true, if_false]

/-- The call of `cache_bip32_xpub` on a path that is cached. -/
theorem cache_bip32_xpub_present {Key : Type} (E : Primitives Key) (self : signer Key)
    (path : List Nat) (x y : String) (h : map_find path self.m_cached_bip32_xpubs = some y) :
    signer.cache_bip32_xpub E self path x
      = if y = x then (.ok false, self) else (.error .assertion_error, self) := by
  simp only [signer.cache_bip32_xpub, map_emplace_present lex_less path x y _ h, Bool.not_false,
    if_true, h, Option.some.injEq, with_cache_self]

/-- After a call of `cache_bip32_xpub` that returns, the path holds the value. -/
theorem cache_bip32_xpub_ok_cached {Key : Type} (E : Primitives Key) (self : signer Key)
    (path : List Nat) (x : String) (b : Bool)
    (h : (signer.cache_bip32_xpub E self path x).1 = .ok b) :
    map_find path (signer.cache_bip32_xpub E self path x).2.m_cached_bip32_xpubs = some x := by
  cases hf : map_find path self.m_cached_bip32_xpubs with
  | some y =>
    rw [cache_bip32_xpub_present E self path x y hf] at h ⊢
    by_cases hy : y = x
    · subst hy
      simp [hf]
    · simp [hy] at h
  | none =>
    rw [cache_bip32_xpub_absent E self path x hf] at h ⊢
    by_cases hp : path = []
    · subst hp
      simp only [List.isEmpty_nil, if_true] at h ⊢
      cases hparse : E.bip32_public_key_from_bip32_xpub x with
      | error e => simp [hparse] at h
      | ok mk =>
        simp only [hparse] at h ⊢
        cases hlogin : derive_login_bip32_xpub E mk with
        | error e => simp [hlogin] at h
        | ok login =>
          simp [signer.with_cache, map_find_emplace, LOGIN_PATH, map_find_assign_same]
    · simp [isEmpty_of_ne_nil path hp, signer.with_cache, map_find_assign_same]

/-- C11 (as amended): `cache_bip32_xpub(p, x)` on a path that is not cached
stores `x` at `p` and returns true when `p` is not the empty path, and also when
`p` is the empty path and `x` parses as an extended key whose login key derives;
when `p` is the empty path and the parse or the derivation fails, the call fails
with that error.  On a path cached with `x` it returns false and changes nothing;
on a path cached with another value it fails the runtime assertion and changes
nothing. -/
theorem cache_bip32_xpub_cases {Key : Type} (E : Primitives Key) (self : signer Key)
    (path : List Nat) (x : String) :
    (map_find path self.m_cached_bip32_xpubs = none → path ≠ [] →
      (signer.cache_bip32_xpub E self path x).1 = .ok true
      ∧ ∀ p, map_find p (signer.cache_bip32_xpub E self path x).2.m_cached_bip32_xpubs
          = if p = path then some x else map_find p self.m_cached_bip32_xpubs)
    ∧ (map_find path self.m_cached_bip32_xpubs = none → path = [] →
        ∀ master_pubkey login, E.bip32_public_key_from_bip32_xpub x = .ok master_pubkey →
          derive_login_bip32_xpub E master_pubkey = .ok login →
          (signer.cache_bip32_xpub E self path x).1 = .ok true
          ∧ map_find path (signer.cache_bip32_xpub E self path x).2.m_cached_bip32_xpubs = some x)
    ∧ (map_find path self.m_cached_bip32_xpubs = none → path = [] →
        ∀ e, (E.bip32_public_key_from_bip32_xpub x = .error e
            ∨ ∃ master_pubkey, E.bip32_public_key_from_bip32_xpub x = .ok master_pubkey
                ∧ derive_login_bip32_xpub E master_pubkey = .error e) →
          (signer.cache_bip32_xpub E self path x).1 = .error e)
    ∧ (map_find path self.m_cached_bip32_xpubs = some x →
        signer.cache_bip32_xpub E self path x = (.ok false, self))
    ∧ (∀ y, map_find path self.m_cached_bip32_xpubs = some y → y ≠ x →
        signer.cache_bip32_xpub E self path x = (.error .assertion_error, self)) := by
  refine ⟨?_, ?_, ?_, ?_, ?_⟩
  · intro hf hp
    rw [cache_bip32_xpub_absent E self path x hf]
    simp only [isEmpty_of_ne_nil path hp, Bool.false_eq_true, if_false, signer.with_cache,
      true_and]
    intro p
    by_cases hpp : p = path
    · subst hpp
      simp [map_find_assign_same]
    · simp [hpp, map_find_assign_other _ _ _ _ _ hpp]
  · intro hf hp master_pubkey login hparse hlogin
    subst hp
    rw [cache_bip32_xpub_absent E self [] x hf]
    simp [hparse, hlogin, signer.with_cache, map_find_emplace, LOGIN_PATH, map_find_assign_same]
  · intro hf hp e he
    subst hp
    rw [cache_bip32_xpub_absent E self [] x hf]
    rcases he with hparse | ⟨master_pubkey, hparse, hlogin⟩
    · simp [hparse]
    · simp [hparse, hlogin]
  · intro hf
    rw [cache_bip32_xpub_present E self path x x hf]
    simp
  · intro y hf hy
    rw [cache_bip32_xpub_present E self path x y hf]
    simp [hy]

/-- On a signer with an empty xpub cache, caching a string of three letters x
under the path [7] stores it and returns true. -/
theorem cache_bip32_xpub_cases_witness :
    (signer.cache_bip32_xpub test_primitives
        (⟨true, false, 0, Json.null, Json.null, none, none, []⟩ : signer Nat) [7] "xxx").1
      = .ok true
    ∧ map_find [7] (signer.cache_bip32_xpub test_primitives
        (⟨true, false, 0, Json.null, Json.null, none, none, []⟩ : signer Nat) [7]
          "xxx").2.m_cached_bip32_xpubs = some "xxx" := by
  obtain ⟨h1, h2⟩ := (cache_bip32_xpub_cases test_primitives
    (⟨true, false, 0, Json.null, Json.null, none, none, []⟩ : signer Nat) [7] "xxx").1 rfl
    (by decide)
  exact ⟨h1, by rw [h2 [7]]; simp⟩

/-- C11 fails as stated: on a signer constructed for the hardware device Ledger
the empty path is not cached, and `cache_bip32_xpub(EMPTY_PATH, x)` with an `x`
that does not parse as an extended key does not return true: it fails with the
error of the parse. -/
theorem cache_bip32_xpub_cases_counterexample :
    ∃ fresh : signer Nat,
      signer.create test_primitives ⟨true, false, 0⟩
          (Json.object [("device", Json.object [("name", Json.string "Ledger")])]) Json.null
        = .ok fresh
      ∧ map_find EMPTY_PATH fresh.m_cached_bip32_xpubs = none
      ∧ (signer.cache_bip32_xpub test_primitives fresh EMPTY_PATH "not an xpub").1
          = .error (.external "not an extended key")
      ∧ (signer.cache_bip32_xpub test_primitives fresh EMPTY_PATH "not an xpub").1 ≠ .ok true := by
  refine ⟨⟨true, false, 0, Json.null, _, none, none, []⟩, rfl, rfl, rfl, ?_⟩
  intro h
  simp [signer.cache_bip32_xpub, map_emplace, map_find, EMPTY_PATH, test_primitives] at h

/-- C12 (as amended): when the empty path is not cached and `x` parses as an
extended key whose login key derives, `cache_bip32_xpub(EMPTY_PATH, x)` returns
true, and afterwards LOGIN_PATH holds the value it held before, when it was
cached, and otherwise the login key derived from `x`; and the call returns only
when `x` parses and the login key derives. -/
theorem cache_bip32_xpub_login_key {Key : Type} (E : Primitives Key) (self : signer Key)
    (x : String) (hnone : map_find EMPTY_PATH self.m_cached_bip32_xpubs = none) :
    (∀ master_pubkey login, E.bip32_public_key_from_bip32_xpub x = .ok master_pubkey →
      derive_login_bip32_xpub E master_pubkey = .ok login →
        (signer.cache_bip32_xpub E self EMPTY_PATH x).1 = .ok true
        ∧ map_find LOGIN_PATH (signer.cache_bip32_xpub E self EMPTY_PATH x).2.m_cached_bip32_xpubs
            = some ((map_find LOGIN_PATH self.m_cached_bip32_xpubs).getD login))
    ∧ (∀ b, (signer.cache_bip32_xpub E self EMPTY_PATH x).1 = .ok b →
        ∃ master_pubkey login, E.bip32_public_key_from_bip32_xpub x = .ok master_pubkey
          ∧ derive_login_bip32_xpub E master_pubkey = .ok login) := by
  have hrun := cache_bip32_xpub_absent E self EMPTY_PATH x hnone
  simp only [EMPTY_PATH, List.isEmpty_nil, if_true] at hrun
  constructor
  · intro master_pubkey login hparse hlogin
    simp only [EMPTY_PATH, hrun, hparse, hlogin, signer.with_cache, true_and]
    rw [map_find_emplace]
    simp only [if_true]
    rw [map_find_assign_other lex_less [] LOGIN_PATH x _ (by decide)]
  · intro b hb
    simp only [EMPTY_PATH, hrun] at hb
    cases hparse : E.bip32_public_key_from_bip32_xpub x with
    | error e => simp [hparse] at hb
    | ok master_pubkey =>
      cases hlogin : derive_login_bip32_xpub E master_pubkey with
      | error e => simp [hparse, hlogin] at hb
      | ok login => exact ⟨master_pubkey, login, rfl, hlogin⟩

/-- On a signer with an empty xpub cache, caching the master xpub of three
letters x also caches its login key, the string of four letters x. -/
theorem cache_bip32_xpub_login_key_witness :
    (signer.cache_bip32_xpub test_primitives
        (⟨true, false, 0, Json.null, Json.null, none, none, []⟩ : signer Nat) EMPTY_PATH "xxx").1
      = .ok true
    ∧ map_find LOGIN_PATH (signer.cache_bip32_xpub test_primitives
        (⟨true, false, 0, Json.null, Json.null, none, none, []⟩ : signer Nat) EMPTY_PATH
          "xxx").2.m_cached_bip32_xpubs = some "xxxx" :=
  (cache_bip32_xpub_login_key test_primitives
    (⟨true, false, 0, Json.null, Json.null, none, none, []⟩ : signer Nat) "xxx" rfl).1
    2 "xxxx" rfl rfl

/-- C12 fails as stated: on a signer constructed for the hardware device Ledger,
`cache_bip32_xpub(LOGIN_PATH, "other")` caches a login key; the empty path is
still not cached; `cache_bip32_xpub(EMPTY_PATH, x)` with the master xpub of three
letters x then returns true, and LOGIN_PATH still holds "other", not the login
key derived from `x`, which is the string of four letters x. -/
theorem cache_bip32_xpub_login_key_counterexample :
    ∃ fresh : signer Nat,
      signer.create test_primitives ⟨true, false, 0⟩
          (Json.object [("device", Json.object [("name", Json.string "Ledger")])]) Json.null
        = .ok fresh
      ∧ (signer.cache_bip32_xpub test_primitives fresh LOGIN_PATH "other").1 = .ok true
      ∧ map_find EMPTY_PATH
          (signer.cache_bip32_xpub test_primitives fresh LOGIN_PATH "other").2.m_cached_bip32_xpubs
          = none
      ∧ (signer.cache_bip32_xpub test_primitives
          (signer.cache_bip32_xpub test_primitives fresh LOGIN_PATH "other").2
          EMPTY_PATH "xxx").1 = .ok true
      ∧ test_primitives.bip32_public_key_from_bip32_xpub "xxx" = .ok 2
      ∧ derive_login_bip32_xpub test_primitives 2 = .ok "xxxx"
      ∧ map_find LOGIN_PATH (signer.cache_bip32_xpub test_primitives
          (signer.cache_bip32_xpub test_primitives fresh LOGIN_PATH "other").2
          EMPTY_PATH "xxx").2.m_cached_bip32_xpubs = some "other"
      ∧ map_find LOGIN_PATH (signer.cache_bip32_xpub test_primitives
          (signer.cache_bip32_xpub test_primitives fresh LOGIN_PATH "other").2
          EMPTY_PATH "xxx").2.m_cached_bip32_xpubs ≠ some "xxxx" := by
  refine ⟨⟨true, false, 0, Json.null, _, none, none, []⟩, rfl, rfl, rfl, rfl, rfl, rfl, rfl, ?_⟩
  decide

/-- C20: on a signer without a master key `get_bip32_xpub(p)` returns the cached
value when `p` is cached and changes nothing; it fails the runtime assertion and
changes nothing when `p` is not cached; and after a call `cache_bip32_xpub(p, x)`
that returned it returns `x`. -/
theorem get_bip32_xpub_without_master_key {Key : Type} (E : Primitives Key) (self : signer Key)
    (path : List Nat) (hno : self.m_master_key = none) :
    (∀ v, map_find path self.m_cached_bip32_xpubs = some v →
      signer.get_bip32_xpub E self path = (.ok v, self))
    ∧ (map_find path self.m_cached_bip32_xpubs = none →
      signer.get_bip32_xpub E self path = (.error .assertion_error, self))
    ∧ (∀ x b, (signer.cache_bip32_xpub E self path x).1 = .ok b →
      (signer.cache_bip32_xpub E self path x).2.m_master_key = none
      ∧ signer.get_bip32_xpub E (signer.cache_bip32_xpub E self path x).2 path
          = (.ok x, (signer.cache_bip32_xpub E self path x).2)) := by
  refine ⟨?_, ?_, ?_⟩
  · intro v hv
    simp [signer.get_bip32_xpub, hv]
  · intro hv
    simp [signer.get_bip32_xpub, hv, hno]
  · intro x b hb
    have hcached := cache_bip32_xpub_ok_cached E self path x b hb
    constructor
    · simp only [signer.cache_bip32_xpub]
      repeat' split
      all_goals exact hno
    · generalize (signer.cache_bip32_xpub E self path x).2 = after at hcached
      simp [signer.get_bip32_xpub, hcached]

/-- A signer without a master key fails on the path [7], and answers with the
string cached under it after `cache_bip32_xpub`. -/
theorem get_bip32_xpub_without_master_key_witness :
    signer.get_bip32_xpub test_primitives
        (⟨true, false, 0, Json.null, Json.null, none, none, []⟩ : signer Nat) [7]
      = (.error .assertion_error, ⟨true, false, 0, Json.null, Json.null, none, none, []⟩)
    ∧ (signer.get_bip32_xpub test_primitives
        (signer.cache_bip32_xpub test_primitives
          (⟨true, false, 0, Json.null, Json.null, none, none, []⟩ : signer Nat) [7] "xxx").2
        [7]).1 = .ok "xxx" := by
  obtain ⟨_, h2, h3⟩ := get_bip32_xpub_without_master_key test_primitives
    (⟨true, false, 0, Json.null, Json.null, none, none, []⟩ : signer Nat) [7] rfl
  refine ⟨h2 rfl, ?_⟩
  rw [(h3 "xxx" true rfl).2]

/-! ## The master blinding key -/

/-- C13: `set_master_blinding_key` with the empty string changes nothing; with a
string that is not empty and decodes to 64 bytes it stores these bytes; with one
that decodes to 32 bytes it stores 32 zero bytes followed by them; and with one
that decodes to any other number of bytes it fails the runtime assertion and
changes nothing. -/
theorem set_master_blinding_key_cases {Key : Type} (E : Primitives Key) (self : signer Key)
    (blinding_key_hex : String) :
    (blinding_key_hex = "" →
      signer.set_master_blinding_key E self blinding_key_hex = (.ok (), self))
    ∧ ∀ b, blinding_key_hex ≠ "" → E.h2b blinding_key_hex = .ok b →
        (b.length = 64 →
          signer.set_master_blinding_key E self blinding_key_hex
            = (.ok (), { self with m_master_blinding_key := some b }))
        ∧ (b.length = 32 →
          signer.set_master_blinding_key E self blinding_key_hex
            = (.ok (), { self with m_master_blinding_key := some (List.replicate 32 0 ++ b) }))
        ∧ (b.length ≠ 64 → b.length ≠ 32 →
          signer.set_master_blinding_key E self blinding_key_hex
            = (.error .assertion_error, self)) := by
  constructor
  · intro h
    simp [signer.set_master_blinding_key, h]
  · intro b hne hb
    refine ⟨?_, ?_, ?_⟩
    · intro hl
      simp [signer.set_master_blinding_key, hne, hb, hl, SHA512_LEN]
    · intro hl
      simp [signer.set_master_blinding_key, hne, hb, hl, SHA512_LEN]
    · intro h64 h32
      simp [signer.set_master_blinding_key, hne, hb, h64, h32, SHA512_LEN]

/-- A key of 32 bytes is stored behind 32 zero bytes. -/
theorem set_master_blinding_key_cases_witness :
    signer.set_master_blinding_key test_primitives
        (⟨true, true, 0, Json.null, Json.null, none, none, []⟩ : signer Nat)
        (String.mk (List.replicate 32 'a'))
      = (.ok (), ⟨true, true, 0, Json.null, Json.null, none,
          some (List.replicate 32 0 ++ List.replicate 32 97), []⟩) :=
  ((set_master_blinding_key_cases test_primitives
    (⟨true, true, 0, Json.null, Json.null, none, none, []⟩ : signer Nat)
    (String.mk (List.replicate 32 'a'))).2 (List.replicate 32 97) (by decide) rfl).2.1 rfl

/-! ## Capabilities -/

/-- Credentials with a username, and no explicit device, resolve to the
watch-only profile. -/
theorem get_device_json_watch_only_of_ok (hw_device c d : Json) (hne : c.empty = false)
    (hu : c.contains "username" = true)
    (h : get_device_json hw_device c = .ok d) : d = WATCH_ONLY_DEVICE_JSON := by
  have hchoice : get_device_json_choice hw_device c = .ok WATCH_ONLY_DEVICE_JSON := by
    cases hch : get_device_json_choice hw_device c with
    | error e => simp [get_device_json, bind, Except.bind, hch] at h
    | ok ret =>
      simp only [get_device_json_choice] at hch
      split at hch
      · simp at hch
      · rename_i device _
        cases hde : device.empty with
        | false => simp [hde, hne] at hch
        | true =>
          simp only [hde, hu, Bool.not_true, Bool.false_eq_true, if_false, if_true,
            Except.ok.injEq] at hch
          rw [hch]
  have hrun : get_device_json hw_device c = .ok WATCH_ONLY_DEVICE_JSON := by
    simp only [get_device_json, bind, Except.bind, hchoice]
    rfl
  rw [hrun] at h
  exact (Except.ok.inj h).symm

/-- A signer constructed from credentials that are not empty has one of the two
fixed profiles as its device. -/
theorem create_with_credentials_profile {Key : Type} (E : Primitives Key)
    (net_params : network_parameters) (hw_device credentials : Json) (self : signer Key)
    (hcreate : signer.create E net_params hw_device credentials = .ok self)
    (hne : credentials.empty = false) :
    self.m_device = WATCH_ONLY_DEVICE_JSON ∨ self.m_device = SOFTWARE_DEVICE_JSON := by
  obtain ⟨hcred, hdev⟩ := create_ok E net_params hw_device credentials self hcreate
  rcases get_credentials_json_shape E credentials _ hne hcred with
    ⟨_, _, _, hc⟩ | ⟨_, _, _, _, hc⟩ | ⟨_, _, hc⟩
  · left
    rw [hc] at hdev
    refine get_device_json_watch_only_of_ok hw_device _ _ ?_ ?_ hdev
    · rfl
    · simp [Json.contains, Json.find, map_find]
  · right
    rw [hc] at hdev
    refine get_device_json_software hw_device _ _ ?_ ?_ ?_ hdev
    · rfl
    · simp [Json.contains, Json.find, map_find]
    · simp [Json.contains, Json.find, map_find]
  · right
    rw [hc] at hdev
    refine get_device_json_software hw_device _ _ ?_ ?_ ?_ hdev
    · rfl
    · simp [Json.contains, Json.find, map_find]
    · simp [Json.contains, Json.find, map_find]

/-- An enumeration value below 2^32 is read back from its document. -/
theorem get_enum_enum_json (level : Nat) (h : level < 4294967296) :
    (enum_json level).get_enum = .ok level := by
  have h1 : (Int.ofNat level) % 4294967296 = Int.ofNat level :=
    Int.emod_eq_of_lt (Int.ofNat_nonneg level) (by
      have h2 : (level : Int) < 4294967296 := by exact_mod_cast h
      exact h2)
  simp only [enum_json, Json.get_enum, h1]
  rfl

/-- The AE protocol level of a signer is the `supports_ae_protocol` member of its
device. -/
theorem get_ae_protocol_support_of_member {Key : Type} (self : signer Key) (level : Nat)
    (hlevel : level < 4294967296)
    (h : self.m_device.find "supports_ae_protocol" = some (enum_json level)) :
    self.get_ae_protocol_support = .ok level := by
  cases hd : self.m_device with
  | object kvs =>
    rw [hd] at h
    simp only [Json.find] at h
    simp only [signer.get_ae_protocol_support, hd, Json.subscript, h, bind, Except.bind,
      get_enum_enum_json level hlevel]
  | null => simp [hd, Json.find] at h
  | boolean b => simp [hd, Json.find] at h
  | number z => simp [hd, Json.find] at h
  | string str => simp [hd, Json.find] at h
  | array xs => simp [hd, Json.find] at h

/-- The read of a member that is present. -/
theorem subscript_of_find (j v : Json) (key : String) (h : j.find key = some v) :
    j.subscript key = .ok v := by
  cases j with
  | object kvs =>
    simp only [Json.find] at h
    simp [Json.subscript, h]
  | null => simp [Json.find] at h
  | boolean b => simp [Json.find] at h
  | number z => simp [Json.find] at h
  | string str => simp [Json.find] at h
  | array xs => simp [Json.find] at h

/-- C14: for a signer whose device holds the AE protocol level `level` in its
member `supports_ae_protocol`: with a level other than none `supports_low_r()`
returns false whatever the member `supports_low_r` is, and it returns true
exactly when the level is none and the member `supports_low_r` is true.  The same
in terms of the accessor `get_ae_protocol_support`; and a signer constructed
from credentials, whose device is the software or the watch-only profile,
returns true. -/
theorem supports_low_r_cases {Key : Type} (E : Primitives Key) (self : signer Key) :
    (∀ level, level < 4294967296 →
      self.m_device.find "supports_ae_protocol" = some (enum_json level) →
        (level ≠ ae_protocol_support_level.none → self.supports_low_r = .ok false)
        ∧ (self.supports_low_r = .ok true
            ↔ level = ae_protocol_support_level.none
              ∧ self.m_device.find "supports_low_r" = some (Json.boolean true))
        ∧ (∀ b, level = ae_protocol_support_level.none →
            self.m_device.find "supports_low_r" = some (Json.boolean b) →
            self.supports_low_r = .ok b))
    ∧ (self.supports_low_r = .ok true
      ↔ self.get_ae_protocol_support = .ok ae_protocol_support_level.none
        ∧ self.m_device.subscript "supports_low_r" = .ok (Json.boolean true))
    ∧ (∀ level, self.get_ae_protocol_support = .ok level →
        level ≠ ae_protocol_support_level.none → self.supports_low_r = .ok false)
    ∧ (∀ net_params hw_device credentials,
        signer.create E net_params hw_device credentials = .ok self →
        credentials.empty = false → self.supports_low_r = .ok true) := by
  have hiff : self.supports_low_r = .ok true
      ↔ self.get_ae_protocol_support = .ok ae_protocol_support_level.none
        ∧ self.m_device.subscript "supports_low_r" = .ok (Json.boolean true) := by
    cases hae : self.get_ae_protocol_support with
    | error e => simp [signer.supports_low_r, hae, bind, Except.bind]
    | ok level =>
      by_cases hl : level = ae_protocol_support_level.none
      · subst hl
        cases hv : self.m_device.subscript "supports_low_r" with
        | error e => simp [signer.supports_low_r, hae, hv, bind, Except.bind]
        | ok v =>
          cases v <;> simp [signer.supports_low_r, hae, hv, bind, Except.bind, Json.get_bool]
      · simp [signer.supports_low_r, hae, hl, bind, Except.bind]
  have hother : ∀ level, self.get_ae_protocol_support = .ok level →
      level ≠ ae_protocol_support_level.none → self.supports_low_r = .ok false := by
    intro level hae hl
    simp [signer.supports_low_r, hae, hl, bind, Except.bind]
  refine ⟨?_, hiff, hother, ?_⟩
  · intro level hlevel hmember
    have hae := get_ae_protocol_support_of_member self level hlevel hmember
    refine ⟨fun hl => hother level hae hl, ?_, ?_⟩
    · rw [hiff, hae]
      constructor
      · rintro ⟨hl, hv⟩
        refine ⟨Except.ok.inj hl, ?_⟩
        cases hf : self.m_device.find "supports_low_r" with
        | none =>
          cases hd : self.m_device with
          | object kvs =>
            rw [hd] at hf hv
            simp only [Json.find] at hf
            simp [Json.subscript, hf] at hv
          | null => simp [hd, Json.find] at hmember
          | boolean b => simp [hd, Json.find] at hmember
          | number z => simp [hd, Json.find] at hmember
          | string str => simp [hd, Json.find] at hmember
          | array xs => simp [hd, Json.find] at hmember
        | some v =>
          rw [subscript_of_find _ v _ hf] at hv
          rw [Except.ok.inj hv]
      · rintro ⟨hl, hv⟩
        exact ⟨by rw [hl], subscript_of_find _ _ _ hv⟩
    · intro b hl hv
      subst hl
      simp [signer.supports_low_r, hae, subscript_of_find _ _ _ hv, bind, Except.bind,
        Json.get_bool]
  · intro net_params hw_device credentials hcreate hne
    rcases create_with_credentials_profile E net_params hw_device credentials self hcreate hne
      with hd | hd
    · simp only [signer.supports_low_r, signer.get_ae_protocol_support, hd]
      rfl
    · simp only [signer.supports_low_r, signer.get_ae_protocol_support, hd]
      rfl

/-- The signer constructed for the device Ledger, which reports the AE protocol
level 1 and `supports_low_r` true, does not support low-R signatures; the same
device with the AE protocol level none does. -/
theorem supports_low_r_cases_witness :
    signer.create test_primitives ⟨true, false, 0⟩
        (Json.object [("device", Json.object [("name", Json.string "Ledger"),
          ("supports_ae_protocol", enum_json 1), ("supports_low_r", Json.boolean true)])])
        Json.null
      = .ok ⟨true, false, 0, Json.null,
          Json.object [("device_type", Json.string "hardware"), ("name", Json.string "Ledger"),
            ("supports_ae_protocol", enum_json 1),
            ("supports_arbitrary_scripts", Json.boolean false),
            ("supports_host_unblinding", Json.boolean false),
            ("supports_liquid", enum_json liquid_support_level.none),
            ("supports_low_r", Json.boolean true)], none, none, []⟩
    ∧ signer.supports_low_r
        (⟨true, false, 0, Json.null,
          Json.object [("device_type", Json.string "hardware"), ("name", Json.string "Ledger"),
            ("supports_ae_protocol", enum_json 1),
            ("supports_arbitrary_scripts", Json.boolean false),
            ("supports_host_unblinding", Json.boolean false),
            ("supports_liquid", enum_json liquid_support_level.none),
            ("supports_low_r", Json.boolean true)], none, none, []⟩ : signer Nat) = .ok false
    ∧ signer.supports_low_r
        (⟨true, false, 0, Json.null,
          Json.object [("device_type", Json.string "hardware"), ("name", Json.string "Ledger"),
            ("supports_ae_protocol", enum_json ae_protocol_support_level.none),
            ("supports_arbitrary_scripts", Json.boolean false),
            ("supports_host_unblinding", Json.boolean false),
            ("supports_liquid", enum_json liquid_support_level.none),
            ("supports_low_r", Json.boolean true)], none, none, []⟩ : signer Nat) = .ok true := by
  refine ⟨rfl, ?_, ?_⟩
  · exact ((supports_low_r_cases test_primitives
      (⟨true, false, 0, Json.null,
        Json.object [("device_type", Json.string "hardware"), ("name", Json.string "Ledger"),
          ("supports_ae_protocol", enum_json 1),
          ("supports_arbitrary_scripts", Json.boolean false),
          ("supports_host_unblinding", Json.boolean false),
          ("supports_liquid", enum_json liquid_support_level.none),
          ("supports_low_r", Json.boolean true)], none, none, []⟩ : signer Nat)).1
      1 (by decide) rfl).1 (by decide)
  · exact ((supports_low_r_cases test_primitives
      (⟨true, false, 0, Json.null,
        Json.object [("device_type", Json.string "hardware"), ("name", Json.string "Ledger"),
          ("supports_ae_protocol", enum_json ae_protocol_support_level.none),
          ("supports_arbitrary_scripts", Json.boolean false),
          ("supports_host_unblinding", Json.boolean false),
          ("supports_liquid", enum_json liquid_support_level.none),
          ("supports_low_r", Json.boolean true)], none, none, []⟩ : signer Nat)).1
      0 (by decide) rfl).2.2 true rfl rfl

/-! ## The fixed profiles and the filled descriptor -/

/-- Without an explicit device the descriptor chosen depends on the credentials
only. -/
theorem get_device_json_choice_no_device (hw_device c : Json)
    (hnodev : hw_device.empty = true
      ∨ ∃ d, hw_device.value_json "device" Json.empty_object = .ok d ∧ d.empty = true) :
    get_device_json_choice hw_device c
      = if c.contains "username" then .ok WATCH_ONLY_DEVICE_JSON
        else if c.contains "seed" then .ok SOFTWARE_DEVICE_JSON
        else .error (.user_error "Hardware device or credentials required") := by
  cases hemp : hw_device.empty with
  | true =>
    simp only [get_device_json_choice, hemp, if_true]
    simp [Json.empty_object, Json.empty]
  | false =>
    rcases hnodev with h | ⟨d, hd, hde⟩
    · rw [hemp] at h
      cases h
    · simp only [get_device_json_choice, hemp, Bool.false_eq_true, if_false, hd]
      simp [hde]

/-- C15: without an explicit device descriptor, normalised watch-only
credentials resolve to the fixed watch-only profile and normalised credentials
with a seed (from a mnemonic or a raw seed) to the fixed software profile, both
with the values given here; with empty credentials the resolution fails with
the user error "Hardware device or credentials required". -/
theorem get_device_json_profiles {Key : Type} (E : Primitives Key) (hw_device credentials : Json)
    (hnodev : hw_device.empty = true
      ∨ ∃ d, hw_device.value_json "device" Json.empty_object = .ok d ∧ d.empty = true) :
    (∀ c, credentials.empty = false → get_credentials_json E credentials = .ok c →
      (credentials.find "username" ≠ none →
        get_device_json hw_device c = .ok WATCH_ONLY_DEVICE_JSON)
      ∧ (credentials.find "username" = none →
        c.contains "seed" = true ∧ get_device_json hw_device c = .ok SOFTWARE_DEVICE_JSON))
    ∧ WATCH_ONLY_DEVICE_JSON
        = Json.object [("device_type", Json.string "watch-only"),
            ("supports_ae_protocol", enum_json ae_protocol_support_level.none),
            ("supports_arbitrary_scripts", Json.boolean true),
            ("supports_host_unblinding", Json.boolean false),
            ("supports_liquid", enum_json liquid_support_level.none),
            ("supports_low_r", Json.boolean true)]
    ∧ SOFTWARE_DEVICE_JSON
        = Json.object [("device_type", Json.string "software"),
            ("supports_ae_protocol", enum_json ae_protocol_support_level.none),
            ("supports_arbitrary_scripts", Json.boolean true),
            ("supports_host_unblinding", Json.boolean true),
            ("supports_liquid", enum_json liquid_support_level.lite),
            ("supports_low_r", Json.boolean true)]
    ∧ (credentials.empty = true →
        get_credentials_json E credentials = .ok Json.null
        ∧ get_device_json hw_device Json.null
            = .error (.user_error "Hardware device or credentials required")) := by
  have hchoice := get_device_json_choice_no_device hw_device
  refine ⟨?_, rfl, rfl, ?_⟩
  · intro c hne hcred
    rcases get_credentials_json_shape E credentials c hne hcred with
      ⟨_, _, hu, hc⟩ | ⟨_, _, hu, _, hc⟩ | ⟨_, hu, hc⟩
    · subst hc
      refine ⟨fun _ => ?_, fun h => by rw [h] at hu; cases hu⟩
      simp only [get_device_json, hchoice _ hnodev, bind, Except.bind]
      rfl
    · subst hc
      refine ⟨fun h => absurd hu h, fun _ => ⟨by simp [Json.contains, Json.find, map_find], ?_⟩⟩
      simp only [get_device_json, hchoice _ hnodev, bind, Except.bind]
      simp only [Json.contains, Json.find, map_find]
      rfl
    · subst hc
      refine ⟨fun h => absurd hu h, fun _ => ⟨by simp [Json.contains, Json.find, map_find], ?_⟩⟩
      simp only [get_device_json, hchoice _ hnodev, bind, Except.bind]
      simp only [Json.contains, Json.find, map_find]
      rfl
  · intro hemp
    refine ⟨by simp [get_credentials_json, hemp], ?_⟩
    simp only [get_device_json, hchoice _ hnodev, bind, Except.bind]
    rfl

/-- Watch-only credentials without a device document resolve to the watch-only
profile. -/
theorem get_device_json_profiles_witness :
    get_device_json Json.null
        (Json.object [("password", Json.string "secret"), ("username", Json.string "satoshi")])
      = .ok WATCH_ONLY_DEVICE_JSON :=
  ((get_device_json_profiles test_primitives Json.null
    (Json.object [("username", Json.string "satoshi"), ("password", Json.string "secret")])
    (Or.inl rfl)).1 _ rfl rfl).1 (by simp [Json.find, map_find])

/-- The six calls of `json_add_if_missing` fail on a descriptor that is neither
null nor an object. -/
theorem get_device_json_fill_not_object (device : Json) (hn : device.is_null = false)
    (ho : ∀ kvs, device ≠ Json.object kvs) :
    get_device_json_fill device = .error .json_type_error := by
  cases device with
  | null => simp [Json.is_null] at hn
  | object kvs => exact absurd rfl (ho kvs)
  | boolean b => rfl
  | number z => rfl
  | string str => rfl
  | array xs => rfl

/-- An explicit descriptor that resolves with empty credentials is an object with
a field. -/
theorem explicit_device_is_object (hw_device c device r : Json)
    (hdev : hw_device.find "device" = some device) (hd : device.empty = false)
    (hc : c.empty = true) (h : get_device_json hw_device c = .ok r) :
    ∃ kvs, device = Json.object kvs ∧ kvs ≠ [] := by
  have hchoice : get_device_json_choice hw_device c = .ok device := by
    cases hw_device with
    | object hw =>
      simp only [Json.find] at hdev
      have hhw : (Json.object hw).empty = false := by
        cases hw with
        | nil => simp [map_find] at hdev
        | cons a b => rfl
      simp only [get_device_json_choice, hhw, Json.value_json, hdev]
      simp [hd, hc]
    | null => simp [Json.find] at hdev
    | boolean b => simp [Json.find] at hdev
    | number z => simp [Json.find] at hdev
    | string str => simp [Json.find] at hdev
    | array xs => simp [Json.find] at hdev
  cases device with
  | object kvs =>
    refine ⟨kvs, rfl, ?_⟩
    intro hk
    subst hk
    simp [Json.empty] at hd
  | null => simp [Json.empty] at hd
  | boolean b =>
    simp [get_device_json, bind, Except.bind, hchoice,
      get_device_json_fill_not_object (Json.boolean b) rfl (by simp)] at h
  | number z =>
    simp [get_device_json, bind, Except.bind, hchoice,
      get_device_json_fill_not_object (Json.number z) rfl (by simp)] at h
  | string str =>
    simp [get_device_json, bind, Except.bind, hchoice,
      get_device_json_fill_not_object (Json.string str) rfl (by simp)] at h
  | array xs =>
    simp [get_device_json, bind, Except.bind, hchoice,
      get_device_json_fill_not_object (Json.array xs) rfl (by simp)] at h

/-- C16: an explicit descriptor that is not empty and resolves, with empty
credentials, is an object, and the resolved descriptor holds each of the five
capability fields and device_type: with the value of the descriptor when that is
not null, and with the default (false, false, false, none, none, "hardware")
when the descriptor omits the field or gives it as null; every other field, such
as name, is as in the descriptor. -/
theorem get_device_json_explicit_defaults (hw_device c device r : Json)
    (hdev : hw_device.find "device" = some device) (hd : device.empty = false)
    (hc : c.empty = true) (h : get_device_json hw_device c = .ok r) :
    (∀ k dflt, device_default k = some dflt →
      (∃ v, r.find k = some v)
      ∧ (∀ v, device.find k = some v → v.is_null = false → r.find k = some v)
      ∧ (device.find k = none → r.find k = some dflt)
      ∧ (∀ v, device.find k = some v → v.is_null = true → r.find k = some dflt))
    ∧ (∀ k, device_default k = none → r.find k = device.find k)
    ∧ device_default "supports_low_r" = some (Json.boolean false)
    ∧ device_default "supports_arbitrary_scripts" = some (Json.boolean false)
    ∧ device_default "supports_host_unblinding" = some (Json.boolean false)
    ∧ device_default "supports_liquid" = some (enum_json liquid_support_level.none)
    ∧ device_default "supports_ae_protocol" = some (enum_json ae_protocol_support_level.none)
    ∧ device_default "device_type" = some (Json.string "hardware")
    ∧ device_default "name" = none := by
  obtain ⟨kvs, hobj, hne⟩ := explicit_device_is_object hw_device c device r hdev hd hc h
  subst hobj
  have hfields := get_device_json_explicit_fields hw_device c r kvs hdev hne hc h
  have hdf : ∀ k, (Json.object kvs).find k = map_find k kvs := fun _ => rfl
  simp only [hdf]
  refine ⟨?_, ?_, rfl, rfl, rfl, rfl, rfl, rfl, rfl⟩
  · intro k dflt hk
    have hf := hfields k
    simp only [hk] at hf
    refine ⟨⟨_, hf⟩, ?_, ?_, ?_⟩
    · intro v hv hn
      rw [hf]
      simp [filled_value, hv, hn]
    · intro hv
      rw [hf]
      simp [filled_value, hv]
    · intro v hv hn
      rw [hf]
      simp [filled_value, hv, hn]
  · intro k hk
    have hf := hfields k
    simp only [hk] at hf
    exact hf

/-- The descriptor {name: Ledger, supports_low_r: true} resolves to a descriptor
that keeps both fields and reports no Liquid support. -/
theorem get_device_json_explicit_defaults_witness :
    ∃ r, get_device_json
        (Json.object [("device", Json.object [("name", Json.string "Ledger"),
          ("supports_low_r", Json.boolean true)])]) Json.null = .ok r
      ∧ r.find "supports_low_r" = some (Json.boolean true)
      ∧ r.find "supports_liquid" = some (enum_json liquid_support_level.none)
      ∧ r.find "name" = some (Json.string "Ledger") := by
  refine ⟨_, rfl, ?_, ?_, ?_⟩
  · exact ((get_device_json_explicit_defaults
      (Json.object [("device", Json.object [("name", Json.string "Ledger"),
        ("supports_low_r", Json.boolean true)])]) Json.null
      (Json.object [("name", Json.string "Ledger"), ("supports_low_r", Json.boolean true)]) _
      rfl rfl rfl rfl).1 "supports_low_r" (Json.boolean false) rfl).2.1
      (Json.boolean true) rfl rfl
  · rfl
  · rfl

/-! ## Credentials that are refused or watch-only -/

/-- C17: credentials that are not empty and have no username are refused with
the user error "Invalid credentials", and no signer is constructed, when they
have no mnemonic, and when the mnemonic is a string without a space that is not
a string of 129 chars ending in the sentinel X. -/
theorem get_credentials_json_invalid {Key : Type} (E : Primitives Key)
    (net_params : network_parameters) (hw_device credentials : Json)
    (hne : credentials.empty = false) (hu : credentials.find "username" = none)
    (hbad : credentials.find "mnemonic" = none
      ∨ ∃ m, credentials.find "mnemonic" = some (Json.string m)
          ∧ m.data.contains ' ' = false
          ∧ ¬ (m.utf8ByteSize = 129 ∧ m.data.getLast? = some 'X')) :
    get_credentials_json E credentials = .error (.user_error "Invalid credentials")
    ∧ signer.create E net_params hw_device credentials
        = .error (.user_error "Invalid credentials") := by
  have hcred : get_credentials_json E credentials
      = .error (.user_error "Invalid credentials") := by
    rcases hbad with hm | ⟨m, hm, hsp, hx⟩
    · simp only [get_credentials_json, hne, Bool.false_eq_true, if_false, hu, hm]
    · simp only [get_credentials_json, hne, Bool.false_eq_true, if_false, hu, hm,
        Json.get_string, hsp, hx]
  refine ⟨hcred, ?_⟩
  simp only [signer.create, bind, Except.bind, hcred]

/-- A document that holds only a seed field is refused. -/
theorem get_credentials_json_invalid_witness :
    signer.create test_primitives ⟨true, false, 0⟩ Json.null
        (Json.object [("seed", Json.string "00")])
      = .error (.user_error "Invalid credentials") :=
  (get_credentials_json_invalid test_primitives ⟨true, false, 0⟩ Json.null
    (Json.object [("seed", Json.string "00")]) rfl rfl (Or.inl rfl)).2

/-- C18: credentials with a username normalise, when they have a password, to
the document of exactly the two members username and password, with the values
given (it holds neither a mnemonic nor a seed, whatever else the credentials
hold); without a password the normalisation fails.  An empty document
normalises to null, the empty credentials. -/
theorem get_credentials_json_watch_only {Key : Type} (E : Primitives Key)
    (credentials username : Json) (hu : credentials.find "username" = some username) :
    (∀ password, credentials.find "password" = some password →
      get_credentials_json E credentials
        = .ok (Json.object [("password", password), ("username", username)])
      ∧ (Json.object [("password", password), ("username", username)]).find "seed" = none
      ∧ (Json.object [("password", password), ("username", username)]).find "mnemonic" = none)
    ∧ (credentials.find "password" = none →
        get_credentials_json E credentials = .error .json_out_of_range)
    ∧ (∀ e : Json, e.empty = true → get_credentials_json E e = .ok Json.null) := by
  cases credentials with
  | object ck =>
    simp only [Json.find] at hu
    have hne : (Json.object ck).empty = false := by
      cases ck with
      | nil => simp [map_find] at hu
      | cons a b => rfl
    refine ⟨?_, ?_, ?_⟩
    · intro password hp
      simp only [Json.find] at hp
      refine ⟨?_, by simp [Json.find, map_find], by simp [Json.find, map_find]⟩
      simp only [get_credentials_json, hne, Bool.false_eq_true, if_false, Json.find, hu,
        Json.at_key, hp, of_pairs_watch_only]
    · intro hp
      simp only [Json.find] at hp
      simp only [get_credentials_json, hne, Bool.false_eq_true, if_false, Json.find, hu,
        Json.at_key, hp]
    · intro e he
      simp [get_credentials_json, he]
  | null => simp [Json.find] at hu
  | boolean b => simp [Json.find] at hu
  | number z => simp [Json.find] at hu
  | string str => simp [Json.find] at hu
  | array xs => simp [Json.find] at hu

/-- Credentials with a username, a password and a mnemonic normalise to the
username and the password alone. -/
theorem get_credentials_json_watch_only_witness :
    get_credentials_json test_primitives
        (Json.object [("mnemonic", Json.string "abandon ability able"),
          ("password", Json.string "secret"), ("username", Json.string "satoshi")])
      = .ok (Json.object [("password", Json.string "secret"),
          ("username", Json.string "satoshi")]) :=
  ((get_credentials_json_watch_only test_primitives
    (Json.object [("mnemonic", Json.string "abandon ability able"),
      ("password", Json.string "secret"), ("username", Json.string "satoshi")])
    (Json.string "satoshi") rfl).1 (Json.string "secret") rfl).1

/-! ## Network overrides -/

/-- One call of `set_override` on two objects whose members under the key have
the type of the default. -/
theorem set_override_object (D U : List (String × Json)) (key : String) (T : override_type)
    (dflt : Json) (hU : member_has_type T (map_find key U))
    (hD : member_has_type T (map_find key D)) :
    ∃ D2, set_override (Json.object D) key (Json.object U) T dflt = .ok (Json.object D2)
      ∧ ∀ k, map_find k D2
          = if k = key then some (effective_value (map_find key U) (map_find key D) dflt)
            else map_find k D := by
  refine ⟨map_assign string_less key
    (effective_value (map_find key U) (map_find key D) dflt) D, ?_, ?_⟩
  · cases hd : map_find key D with
    | none =>
      cases hu : map_find key U with
      | none =>
        simp [set_override, Json.value_as, hd, hu, bind, Except.bind, Json.assign_key,
          effective_value]
      | some u =>
        have hut := hU u hu
        simp [set_override, Json.value_as, hd, hu, hut, bind, Except.bind, Json.assign_key,
          effective_value]
    | some d =>
      have hdt := hD d hd
      cases hu : map_find key U with
      | none =>
        simp [set_override, Json.value_as, hd, hu, hdt, bind, Except.bind, Json.assign_key,
          effective_value]
      | some u =>
        have hut := hU u hu
        simp [set_override, Json.value_as, hd, hu, hut, hdt, bind, Except.bind, Json.assign_key,
          effective_value]
  · intro k
    by_cases hk : k = key
    · subst hk
      simp [map_find_assign_same]
    · simp [hk, map_find_assign_other _ _ _ _ _ hk]

/-- The nine calls of `set_override` succeed on two objects whose members under
the override-able keys have the types of the defaults; each of these keys gets
its effective value and every other key keeps the registered value. -/
theorem get_network_overrides_object (U D : List (String × Json))
    (htyped : ∀ k T d, override_default k = some (T, d) →
      member_has_type T (map_find k U) ∧ member_has_type T (map_find k D)) :
    ∃ R, get_network_overrides (Json.object U) (Json.object D) = .ok (Json.object R)
      ∧ ∀ k, map_find k R
          = match override_default k with
            | some p => some (effective_value (map_find k U) (map_find k D) p.2)
            | none => map_find k D := by
  have t1 := htyped "electrum_tls" .bool (Json.boolean false) rfl
  obtain ⟨D1, e1, h1⟩ := set_override_object D U "electrum_tls" .bool (Json.boolean false) t1.1 t1.2
  have t2 := htyped "electrum_url" .string (Json.string "") rfl
  have g2 : map_find "electrum_url" D1 = map_find "electrum_url" D := by
    simp only [h1]
    simp
  obtain ⟨D2, e2, h2⟩ := set_override_object D1 U "electrum_url" .string (Json.string "") t2.1
    (by rw [g2]; exact t2.2)
  have t3 := htyped "log_level" .string (Json.string "none") rfl
  have g3 : map_find "log_level" D2 = map_find "log_level" D := by
    simp only [h2, h1]
    simp
  obtain ⟨D3, e3, h3⟩ := set_override_object D2 U "log_level" .string (Json.string "none") t3.1
    (by rw [g3]; exact t3.2)
  have t4 := htyped "spv_multi" .bool (Json.boolean false) rfl
  have g4 : map_find "spv_multi" D3 = map_find "spv_multi" D := by
    simp only [h3, h2, h1]
    simp
  obtain ⟨D4, e4, h4⟩ := set_override_object D3 U "spv_multi" .bool (Json.boolean false) t4.1
    (by rw [g4]; exact t4.2)
  have t5 := htyped "spv_servers" .json (Json.array []) rfl
  have g5 : map_find "spv_servers" D4 = map_find "spv_servers" D := by
    simp only [h4, h3, h2, h1]
    simp
  obtain ⟨D5, e5, h5⟩ := set_override_object D4 U "spv_servers" .json (Json.array []) t5.1
    (by rw [g5]; exact t5.2)
  have t6 := htyped "spv_enabled" .bool (Json.boolean false) rfl
  have g6 : map_find "spv_enabled" D5 = map_find "spv_enabled" D := by
    simp only [h5, h4, h3, h2, h1]
    simp
  obtain ⟨D6, e6, h6⟩ := set_override_object D5 U "spv_enabled" .bool (Json.boolean false) t6.1
    (by rw [g6]; exact t6.2)
  have t7 := htyped "use_tor" .bool (Json.boolean false) rfl
  have g7 : map_find "use_tor" D6 = map_find "use_tor" D := by
    simp only [h6, h5, h4, h3, h2, h1]
    simp
  obtain ⟨D7, e7, h7⟩ := set_override_object D6 U "use_tor" .bool (Json.boolean false) t7.1
    (by rw [g7]; exact t7.2)
  have t8 := htyped "user_agent" .string (Json.string "") rfl
  have g8 : map_find "user_agent" D7 = map_find "user_agent" D := by
    simp only [h7, h6, h5, h4, h3, h2, h1]
    simp
  obtain ⟨D8, e8, h8⟩ := set_override_object D7 U "user_agent" .string (Json.string "") t8.1
    (by rw [g8]; exact t8.2)
  have t9 := htyped "cert_expiry_threshold" .int (Json.number 1) rfl
  have g9 : map_find "cert_expiry_threshold" D8 = map_find "cert_expiry_threshold" D := by
    simp only [h8, h7, h6, h5, h4, h3, h2, h1]
    simp
  obtain ⟨D9, e9, h9⟩ := set_override_object D8 U "cert_expiry_threshold" .int (Json.number 1) t9.1
    (by rw [g9]; exact t9.2)
  refine ⟨D9, ?_, ?_⟩
  · simp only [get_network_overrides, bind, Except.bind, e1, e2, e3, e4, e5, e6, e7, e8, e9,
      pure, Except.pure]
  · intro k
    simp only [h9, h8, h7, h6, h5, h4, h3, h2, h1, override_default]
    by_cases c1 : k = "electrum_tls"
    · subst c1; simp
    · by_cases c2 : k = "electrum_url"
      · subst c2; simp
      · by_cases c3 : k = "log_level"
        · subst c3; simp
        · by_cases c4 : k = "spv_multi"
          · subst c4; simp
          · by_cases c5 : k = "spv_servers"
            · subst c5; simp
            · by_cases c6 : k = "spv_enabled"
              · subst c6; simp
              · by_cases c7 : k = "use_tor"
                · subst c7; simp
                · by_cases c8 : k = "user_agent"
                  · subst c8; simp
                  · by_cases c9 : k = "cert_expiry_threshold"
                    · subst c9; simp
                    · simp [c1, c2, c3, c4, c5, c6, c7, c8, c9]

/-- A property of the nine override-able keys holds of every key that has a
default. -/
theorem override_default_cases (P : String → override_type → Json → Prop)
    (h1 : P "electrum_tls" .bool (Json.boolean false))
    (h2 : P "electrum_url" .string (Json.string ""))
    (h3 : P "log_level" .string (Json.string "none"))
    (h4 : P "spv_multi" .bool (Json.boolean false))
    (h5 : P "spv_servers" .json (Json.array []))
    (h6 : P "spv_enabled" .bool (Json.boolean false))
    (h7 : P "use_tor" .bool (Json.boolean false))
    (h8 : P "user_agent" .string (Json.string ""))
    (h9 : P "cert_expiry_threshold" .int (Json.number 1)) :
    ∀ k T d, override_default k = some (T, d) → P k T d := by
  intro k T d h
  simp only [override_default] at h
  split_ifs at h with c1 c2 c3 c4 c5 c6 c7 c8 c9 <;>
    simp only [Option.some.injEq, Prod.mk.injEq] at h <;>
    obtain ⟨hT, hd⟩ := h <;> subst hT hd
  · rw [c1]; exact h1
  · rw [c2]; exact h2
  · rw [c3]; exact h3
  · rw [c4]; exact h4
  · rw [c5]; exact h5
  · rw [c6]; exact h6
  · rw [c7]; exact h7
  · rw [c8]; exact h8
  · rw [c9]; exact h9

/-- C19 (as amended): for a user document and registered defaults that are
objects in which each of the nine override-able keys, where present, holds a
value of the type of its hard-coded default, `get_network_overrides` succeeds and
the effective value of each of these keys is the value of the user document when
it has the key, else the registered value when the defaults have the key, else
the hard-coded default (false, "", "none", false, [], false, false, "", 1). -/
theorem get_network_overrides_effective (U D : List (String × Json))
    (htyped : ∀ k T d, override_default k = some (T, d) →
      member_has_type T (map_find k U) ∧ member_has_type T (map_find k D)) :
    (∃ R, get_network_overrides (Json.object U) (Json.object D) = .ok R
      ∧ ∀ k T d, override_default k = some (T, d) →
          (∀ v, map_find k U = some v → R.find k = some v)
          ∧ (map_find k U = none → ∀ v, map_find k D = some v → R.find k = some v)
          ∧ (map_find k U = none → map_find k D = none → R.find k = some d))
    ∧ override_default "electrum_tls" = some (.bool, Json.boolean false)
    ∧ override_default "electrum_url" = some (.string, Json.string "")
    ∧ override_default "log_level" = some (.string, Json.string "none")
    ∧ override_default "spv_multi" = some (.bool, Json.boolean false)
    ∧ override_default "spv_servers" = some (.json, Json.array [])
    ∧ override_default "spv_enabled" = some (.bool, Json.boolean false)
    ∧ override_default "use_tor" = some (.bool, Json.boolean false)
    ∧ override_default "user_agent" = some (.string, Json.string "")
    ∧ override_default "cert_expiry_threshold" = some (.int, Json.number 1) := by
  refine ⟨?_, rfl, rfl, rfl, rfl, rfl, rfl, rfl, rfl, rfl⟩
  obtain ⟨R, hrun, hfind⟩ := get_network_overrides_object U D htyped
  refine ⟨Json.object R, hrun, ?_⟩
  intro k T d hk
  have hf := hfind k
  simp only [hk] at hf
  simp only [Json.find]
  refine ⟨?_, ?_, ?_⟩
  · intro v hv
    rw [hf]
    simp [effective_value, hv]
  · intro hu v hv
    rw [hf]
    simp [effective_value, hu, hv]
  · intro hu hd
    rw [hf]
    simp [effective_value, hu, hd]

/-- The user's log level "info" overrides the registered level "debug", and the
registered flag `use_tor` stays. -/
theorem get_network_overrides_effective_witness :
    ∃ R, get_network_overrides
        (Json.object [("log_level", Json.string "info"), ("name", Json.string "localtest")])
        (Json.object [("log_level", Json.string "debug"), ("use_tor", Json.boolean true)])
          = .ok R
      ∧ R.find "log_level" = some (Json.string "info")
      ∧ R.find "use_tor" = some (Json.boolean true)
      ∧ R.find "cert_expiry_threshold" = some (Json.number 1) := by
  obtain ⟨⟨R, hrun, hfind⟩, _⟩ := get_network_overrides_effective
    [("log_level", Json.string "info"), ("name", Json.string "localtest")]
    [("log_level", Json.string "debug"), ("use_tor", Json.boolean true)]
    (override_default_cases _
      (by simp [member_has_type, map_find]) (by simp [member_has_type, map_find])
      (by simp [member_has_type, map_find, override_type.get])
      (by simp [member_has_type, map_find]) (by simp [member_has_type, map_find])
      (by simp [member_has_type, map_find])
      (by simp [member_has_type, map_find, override_type.get])
      (by simp [member_has_type, map_find]) (by simp [member_has_type, map_find]))
  refine ⟨R, hrun, ?_, ?_, ?_⟩
  · exact (hfind "log_level" .string (Json.string "none") rfl).1 _ rfl
  · exact (hfind "use_tor" .bool (Json.boolean false) rfl).2.1 rfl _ rfl
  · exact (hfind "cert_expiry_threshold" .int (Json.number 1) rfl).2.2 rfl rfl

/-- C19 fails as stated: the user value 4294967297 of `cert_expiry_threshold` is
read as an `int`, and the effective value is 1; and the user value 1 of
`electrum_tls`, a number where the default is a boolean, makes
`get_network_overrides` fail with the `type_error` of the JSON library. -/
theorem get_network_overrides_effective_counterexample :
    (∃ R, get_network_overrides
        (Json.object [("cert_expiry_threshold", Json.number 4294967297)]) (Json.object [])
          = .ok R
      ∧ R.find "cert_expiry_threshold" = some (Json.number 1))
    ∧ Json.number 1 ≠ Json.number 4294967297
    ∧ get_network_overrides (Json.object [("electrum_tls", Json.number 1)]) (Json.object [])
        = .error .json_type_error := by
  refine ⟨⟨_, rfl, rfl⟩, ?_, rfl⟩
  intro h
  have h2 := Json.number.inj h
  omega

/-! ## The xpub cache only grows -/

theorem map_find_emplace_keeps {κ ν : Type} [DecidableEq κ] (less : κ → κ → Bool) (p k : κ)
    (v w : ν) (m : List (κ × ν)) (h : map_find p m = some w) :
    map_find p (map_emplace less k v m).1 = some w := by
  rw [map_find_emplace]
  by_cases hk : p = k
  · subst hk
    simp [h]
  · simp [hk, h]

/-- The signer after a call of `get_bip32_xpub`: unchanged, or with one or two
insertions by `emplace`. -/
theorem get_bip32_xpub_state {Key : Type} (E : Primitives Key) (self : signer Key)
    (path : List Nat) :
    (signer.get_bip32_xpub E self path).2 = self
    ∨ (∃ ret, (signer.get_bip32_xpub E self path).2
        = self.with_cache (map_emplace lex_less path ret self.m_cached_bip32_xpubs).1)
    ∨ (∃ ret login, (signer.get_bip32_xpub E self path).2
        = self.with_cache (map_emplace lex_less LOGIN_PATH login
            (map_emplace lex_less path ret self.m_cached_bip32_xpubs).1).1) := by
  unfold signer.get_bip32_xpub
  cases hf : map_find path self.m_cached_bip32_xpubs with
  | some cached => exact Or.inl rfl
  | none =>
    cases hmk : self.m_master_key with
    | none => exact Or.inl rfl
    | some master =>
      by_cases hp : path = []
      · subst hp
        simp only [List.isEmpty_nil, Bool.not_true, Bool.false_eq_true, if_false]
        cases hl : derive_login_bip32_xpub E master with
        | error e => exact Or.inl rfl
        | ok login =>
          simp only []
          cases hser : E.bip32_key_serialize master BIP32_FLAG_KEY_PUBLIC with
          | error e => exact Or.inl rfl
          | ok bytes =>
            simp only []
            cases hb : E.base58check_from_bytes bytes with
            | error e => exact Or.inl rfl
            | ok ret =>
              simp only []
              by_cases hlogin : login = ""
              · simp only [hlogin, ne_eq, not_true_eq_false, if_false]
                exact Or.inr (Or.inl ⟨ret, rfl⟩)
              · simp only [ne_eq, hlogin, not_false_eq_true, if_true]
                exact Or.inr (Or.inr ⟨ret, login, rfl⟩)
      · simp only [isEmpty_of_ne_nil path hp, Bool.not_false, if_true]
        cases hd : derive E master path BIP32_FLAG_KEY_PRIVATE with
        | error e => exact Or.inl rfl
        | ok derived =>
          simp only []
          cases hser : E.bip32_key_serialize derived BIP32_FLAG_KEY_PUBLIC with
          | error e => exact Or.inl rfl
          | ok bytes =>
            simp only []
            cases hb : E.base58check_from_bytes bytes with
            | error e => exact Or.inl rfl
            | ok ret =>
              simp only [ne_eq, not_true_eq_false, if_false]
              exact Or.inr (Or.inl ⟨ret, rfl⟩)

/-- A call of `get_bip32_xpub` keeps every entry of the cache. -/
theorem get_bip32_xpub_keeps {Key : Type} (E : Primitives Key) (self : signer Key)
    (path p : List Nat) (w : String) (h : map_find p self.m_cached_bip32_xpubs = some w) :
    map_find p (signer.get_bip32_xpub E self path).2.m_cached_bip32_xpubs = some w := by
  rcases get_bip32_xpub_state E self path with hs | ⟨ret, hs⟩ | ⟨ret, login, hs⟩
  · rw [hs]
    exact h
  · rw [hs]
    exact map_find_emplace_keeps _ _ _ _ _ _ h
  · rw [hs]
    exact map_find_emplace_keeps _ _ _ _ _ _ (map_find_emplace_keeps _ _ _ _ _ _ h)

/-- A call of `cache_bip32_xpub` keeps every entry of the cache. -/
theorem cache_bip32_xpub_keeps {Key : Type} (E : Primitives Key) (self : signer Key)
    (path p : List Nat) (x w : String) (h : map_find p self.m_cached_bip32_xpubs = some w) :
    map_find p (signer.cache_bip32_xpub E self path x).2.m_cached_bip32_xpubs = some w := by
  cases hf : map_find path self.m_cached_bip32_xpubs with
  | some y =>
    rw [cache_bip32_xpub_present E self path x y hf]
    by_cases hy : y = x
    · simp [hy, h]
    · simp [hy, h]
  | none =>
    have hne : p ≠ path := by
      intro hpp
      rw [hpp, hf] at h
      cases h
    have hassign : map_find p (map_assign lex_less path x self.m_cached_bip32_xpubs) = some w := by
      rw [map_find_assign_other lex_less path p x _ hne]
      exact h
    rw [cache_bip32_xpub_absent E self path x hf]
    cases hemp : path.isEmpty with
    | false => simpa [signer.with_cache] using hassign
    | true =>
      simp only [if_true]
      cases hparse : E.bip32_public_key_from_bip32_xpub x with
      | error e => simpa [signer.with_cache] using hassign
      | ok master_pubkey =>
        simp only []
        cases hlogin : derive_login_bip32_xpub E master_pubkey with
        | error e => simpa [signer.with_cache] using hassign
        | ok login =>
          simp only [signer.with_cache]
          exact map_find_emplace_keeps _ _ _ _ _ _ hassign

theorem xpub_call_run_keeps {Key : Type} (E : Primitives Key) (self : signer Key)
    (call : xpub_call) (p : List Nat) (w : String)
    (h : map_find p self.m_cached_bip32_xpubs = some w) :
    map_find p (call.run E self).m_cached_bip32_xpubs = some w := by
  cases call with
  | get_bip32_xpub path => exact get_bip32_xpub_keeps E self path p w h
  | has_bip32_xpub path => exact h
  | cache_bip32_xpub path x => exact cache_bip32_xpub_keeps E self path p x w h
  | get_cached_bip32_xpubs => exact h

theorem run_calls_keeps {Key : Type} (E : Primitives Key) (calls : List xpub_call) :
    ∀ (self : signer Key) (p : List Nat) (w : String),
      map_find p self.m_cached_bip32_xpubs = some w →
      map_find p (run_calls E self calls).m_cached_bip32_xpubs = some w := by
  induction calls with
  | nil =>
    intro self p w h
    exact h
  | cons call rest ih =>
    intro self p w h
    exact ih (call.run E self) p w (xpub_call_run_keeps E self call p w h)

/-- C21: along every sequence of calls of `get_bip32_xpub`, `has_bip32_xpub`,
`cache_bip32_xpub` and `get_cached_bip32_xpubs`, whether they return or fail, a
path that is cached with the value `v` after some calls is cached with `v` after
any further calls; in particular a login key that is cached keeps its value when
a master xpub is cached afterwards. -/
theorem xpub_cache_only_grows {Key : Type} (E : Primitives Key) (self : signer Key)
    (before later : List xpub_call) (p : List Nat) (v : String) :
    (map_find p (run_calls E self before).m_cached_bip32_xpubs = some v →
      map_find p (run_calls E self (before ++ later)).m_cached_bip32_xpubs = some v)
    ∧ (∀ master_xpub,
        map_find LOGIN_PATH (run_calls E self before).m_cached_bip32_xpubs = some v →
        map_find LOGIN_PATH (signer.cache_bip32_xpub E (run_calls E self before) EMPTY_PATH
          master_xpub).2.m_cached_bip32_xpubs = some v) := by
  constructor
  · intro h
    have happ : run_calls E self (before ++ later)
        = run_calls E (run_calls E self before) later := by
      simp [run_calls, List.foldl_append]
    rw [happ]
    exact run_calls_keeps E later _ p v h
  · intro master_xpub h
    exact cache_bip32_xpub_keeps E _ EMPTY_PATH LOGIN_PATH master_xpub v h

/-- A login key cached as "other" is still "other" after the master xpub of
three letters x is cached, read twice and the cache is copied. -/
theorem xpub_cache_only_grows_witness :
    map_find LOGIN_PATH (run_calls test_primitives
        (⟨true, false, 0, Json.null, Json.null, none, none, []⟩ : signer Nat)
        ([xpub_call.cache_bip32_xpub LOGIN_PATH "other"]
          ++ [xpub_call.cache_bip32_xpub EMPTY_PATH "xxx", xpub_call.get_bip32_xpub EMPTY_PATH,
            xpub_call.get_bip32_xpub [7], xpub_call.get_cached_bip32_xpubs])).m_cached_bip32_xpubs
      = some "other" :=
  (xpub_cache_only_grows test_primitives
    (⟨true, false, 0, Json.null, Json.null, none, none, []⟩ : signer Nat)
    [xpub_call.cache_bip32_xpub LOGIN_PATH "other"]
    [xpub_call.cache_bip32_xpub EMPTY_PATH "xxx", xpub_call.get_bip32_xpub EMPTY_PATH,
      xpub_call.get_bip32_xpub [7], xpub_call.get_cached_bip32_xpubs]
    LOGIN_PATH "other").1 rfl

/-! ## Export and import of a hex seed -/

mutual

theorem equals_refl : ∀ j : Json, Json.equals j j = true
  | Json.null => by simp [Json.equals]
  | Json.boolean a => by simp [Json.equals]
  | Json.number a => by simp [Json.equals]
  | Json.string a => by simp [Json.equals]
  | Json.array xs => by simp [Json.equals, equals_elements_refl xs]
  | Json.object xs => by simp [Json.equals, equals_members_refl xs]

theorem equals_elements_refl : ∀ xs : List Json, Json.equals_elements xs xs = true
  | [] => by simp [Json.equals_elements]
  | x :: xs => by simp [Json.equals_elements, equals_refl x, equals_elements_refl xs]

theorem equals_members_refl : ∀ xs : List (String × Json), Json.equals_members xs xs = true
  | [] => by simp [Json.equals_members]
  | (k, x) :: xs => by simp [Json.equals_members, equals_refl x, equals_members_refl xs]

end

/-- Normalised credentials that hold a seed alone come from a mnemonic without a
space, of 129 chars, that ends in the sentinel: the seed is the mnemonic without
its last char. -/
theorem get_credentials_json_seed_origin {Key : Type} (E : Primitives Key) (credentials : Json)
    (s : String)
    (h : get_credentials_json E credentials = .ok (Json.object [("seed", Json.string s)])) :
    ∃ m, credentials.find "mnemonic" = some (Json.string m)
      ∧ m.data.contains ' ' = false
      ∧ m.utf8ByteSize = 129 ∧ m.data.getLast? = some 'X'
      ∧ s = String.mk m.data.dropLast := by
  cases hemp : credentials.empty with
  | true => simp [get_credentials_json, hemp] at h
  | false =>
    simp only [get_credentials_json, hemp, Bool.false_eq_true, if_false] at h
    cases hu : credentials.find "username" with
    | some username =>
      simp only [hu] at h
      cases hp : credentials.at_key "password" with
      | error e => simp [hp] at h
      | ok password => simp [hp, of_pairs_watch_only] at h
    | none =>
      simp only [hu] at h
      cases hm : credentials.find "mnemonic" with
      | none => simp [hm] at h
      | some mnemonic_j =>
        simp only [hm] at h
        cases mnemonic_j with
        | string m =>
          simp only [Json.get_string] at h
          by_cases hsp : m.data.contains ' ' = true
          · simp only [hsp, if_true] at h
            split at h
            · simp at h
            · rename_i plain hdec
              cases hseed : E.bip39_mnemonic_to_seed plain with
              | error e => simp [hseed] at h
              | ok seed => simp [hseed, of_pairs_mnemonic] at h
          · simp only [hsp, Bool.false_eq_true, if_false] at h
            split at h
            · rename_i hx
              simp only [of_pairs_seed, Except.ok.injEq, Json.object.injEq, List.cons.injEq,
                Prod.mk.injEq, Json.string.injEq, true_and, and_true] at h
              exact ⟨m, rfl, by simpa using hsp, hx.1, hx.2, h.symm⟩
            · simp at h
        | null => simp [Json.get_string] at h
        | boolean b => simp [Json.get_string] at h
        | number z => simp [Json.get_string] at h
        | array xs => simp [Json.get_string] at h
        | object kvs => simp [Json.get_string] at h

/-- A string that ends in X is its part before the last char followed by X. -/
theorem dropLast_append_sentinel (m : String) (h : m.data.getLast? = some 'X') :
    String.mk m.data.dropLast ++ "X" = m := by
  have hd : m.data.dropLast ++ ['X'] = m.data :=
    List.dropLast_append_getLast? 'X' (by simp [h])
  have hdata : (String.mk m.data.dropLast ++ "X").data = m.data := by
    rw [String.data_append]
    exact hd
  exact String.ext hdata

/-- The constructor depends on the credentials through their normal form only. -/
theorem create_congr {Key : Type} (E : Primitives Key) (net_params : network_parameters)
    (hw_device a b : Json) (h : get_credentials_json E a = get_credentials_json E b) :
    signer.create E net_params hw_device a = signer.create E net_params hw_device b := by
  simp only [signer.create, bind, Except.bind, h]

/-- C22: for a constructed signer whose normalised credentials are {seed: s} and
every password, `get_mnemonic` returns `s` followed by X; normalising the
credentials {mnemonic: s followed by X} gives {seed: s} again; constructing a
signer from them with the same network and device gives the same signer; and
every signer constructed from them is compatible with the original, in both
directions. -/
theorem hex_seed_round_trip {Key : Type} (E : Primitives Key) (net_params : network_parameters)
    (hw_device credentials : Json) (self : signer Key) (s p : String)
    (hcreate : signer.create E net_params hw_device credentials = .ok self)
    (hseed : self.m_credentials = Json.object [("seed", Json.string s)]) :
    signer.get_mnemonic E self p = .ok (s ++ "X")
    ∧ get_credentials_json E (Json.of_pairs [("mnemonic", Json.string (s ++ "X"))])
        = .ok (Json.object [("seed", Json.string s)])
    ∧ signer.create E net_params hw_device (Json.of_pairs [("mnemonic", Json.string (s ++ "X"))])
        = .ok self
    ∧ (∀ net2 hw2 other,
        signer.create E net2 hw2 (Json.of_pairs [("mnemonic", Json.string (s ++ "X"))])
          = .ok other →
        self.is_compatible_with other = true ∧ other.is_compatible_with self = true) := by
  obtain ⟨hcred, hdev⟩ := create_ok E net_params hw_device credentials self hcreate
  rw [hseed] at hcred hdev
  obtain ⟨m, hm, hsp, hsz, hx, hs⟩ := get_credentials_json_seed_origin E credentials s hcred
  have hmX : s ++ "X" = m := by
    rw [hs]
    exact dropLast_append_sentinel m hx
  have hsoft : ∀ hw d, get_device_json hw (Json.object [("seed", Json.string s)]) = .ok d →
      d = SOFTWARE_DEVICE_JSON := by
    intro hw d hd
    refine get_device_json_software hw _ d ?_ ?_ ?_ hd
    · rfl
    · simp [Json.contains, Json.find, map_find]
    · simp [Json.contains, Json.find, map_find]
  have hdevice : self.m_device = SOFTWARE_DEVICE_JSON := hsoft hw_device _ hdev
  have hnorm : get_credentials_json E (Json.of_pairs [("mnemonic", Json.string (s ++ "X"))])
      = .ok (Json.object [("seed", Json.string s)]) := by
    have hpairs : Json.of_pairs [("mnemonic", Json.string (s ++ "X"))]
        = Json.object [("mnemonic", Json.string m)] := by
      rw [hmX]
      rfl
    have hne : (Json.object [("mnemonic", Json.string m)]).empty = false := rfl
    have hu : (Json.object [("mnemonic", Json.string m)]).find "username" = none := by
      simp [Json.find, map_find]
    have hmn : (Json.object [("mnemonic", Json.string m)]).find "mnemonic"
        = some (Json.string m) := by
      simp [Json.find, map_find]
    rw [hpairs]
    simp only [get_credentials_json, hne, Bool.false_eq_true, if_false, hu, hmn, Json.get_string,
      hsp, hsz, hx, and_self, if_true, of_pairs_seed, ← hs]
  refine ⟨?_, hnorm, ?_, ?_⟩
  · have hh : self.is_hardware = .ok false := by
      simp only [signer.is_hardware, hdevice]
      rfl
    have hw : self.is_watch_only = .ok false := by
      simp only [signer.is_watch_only, hdevice]
      rfl
    have hfm : self.m_credentials.find "mnemonic" = none := by
      rw [hseed]
      simp [Json.find, map_find]
    have hfs : self.m_credentials.at_key "seed" = .ok (Json.string s) := by
      rw [hseed]
      simp [Json.at_key, map_find]
    simp only [signer.get_mnemonic, bind, Except.bind, hh, hw, pure, Except.pure,
      Bool.false_eq_true, if_false, hfm, hfs, Json.get_string]
  · rw [create_congr E net_params hw_device _ credentials (hnorm.trans hcred.symm)]
    exact hcreate
  · intro net2 hw2 other hother
    obtain ⟨hcred2, hdev2⟩ := create_ok E net2 hw2 _ other hother
    have hc2 : other.m_credentials = Json.object [("seed", Json.string s)] := by
      rw [hnorm] at hcred2
      exact (Except.ok.inj hcred2).symm
    rw [hc2] at hdev2
    have hd2 : other.m_device = SOFTWARE_DEVICE_JSON := hsoft hw2 _ hdev2
    simp [signer.is_compatible_with, hseed, hc2, hdevice, hd2, equals_refl]

set_option maxRecDepth 100000 in
/-- The signer of the hex seed of 128 letters a exports it followed by X, and the
signer constructed from the exported string is the same signer. -/
theorem hex_seed_round_trip_witness :
    signer.get_mnemonic test_primitives
        (⟨true, false, 0, Json.object [("seed", Json.string (String.mk (List.replicate 128 'a')))],
          SOFTWARE_DEVICE_JSON, some 128, none, []⟩ : signer Nat) "secret"
      = .ok (String.mk (List.replicate 128 'a') ++ "X")
    ∧ signer.create test_primitives ⟨true, false, 0⟩ Json.null
        (Json.of_pairs [("mnemonic", Json.string (String.mk (List.replicate 128 'a') ++ "X"))])
      = .ok ⟨true, false, 0, Json.object [("seed", Json.string (String.mk (List.replicate 128 'a')))],
          SOFTWARE_DEVICE_JSON, some 128, none, []⟩ := by
  obtain ⟨h1, _, h3, _⟩ := hex_seed_round_trip test_primitives ⟨true, false, 0⟩ Json.null
    (Json.object [("mnemonic", Json.string (String.mk (List.replicate 128 'a') ++ "X"))])
    (⟨true, false, 0, Json.object [("seed", Json.string (String.mk (List.replicate 128 'a')))],
      SOFTWARE_DEVICE_JSON, some 128, none, []⟩ : signer Nat)
    (String.mk (List.replicate 128 'a')) "secret" rfl rfl
  exact ⟨h1, h3⟩

/-! ## The frame of the network overrides -/

theorem except_bind_ok {ε α β : Type} (x : Except ε α) (f : α → Except ε β) (r : β)
    (h : (x >>= f) = .ok r) : ∃ a, x = .ok a ∧ f a = .ok r := by
  cases x with
  | error e => simp [bind, Except.bind] at h
  | ok a => exact ⟨a, rfl, h⟩

/-- A call of `set_override` that returns leaves every other key as it was. -/
theorem set_override_frame (ret src ret2 : Json) (key : String) (T : override_type)
    (dflt : Json) (h : set_override ret key src T dflt = .ok ret2) :
    ∀ k, k ≠ key → ret2.find k = ret.find k := by
  unfold set_override at h
  obtain ⟨registered, _, h⟩ := except_bind_ok _ _ _ h
  obtain ⟨value, _, h⟩ := except_bind_ok _ _ _ h
  intro k hk
  cases ret with
  | object D =>
    simp only [Json.assign_key, Except.ok.injEq] at h
    rw [← h]
    simp only [Json.find]
    exact map_find_assign_other string_less key k value D hk
  | null =>
    rename_i hreg _
    simp [Json.value_as] at hreg
  | boolean b =>
    simp [Json.assign_key] at h
  | number z =>
    simp [Json.assign_key] at h
  | string str =>
    simp [Json.assign_key] at h
  | array xs =>
    simp [Json.assign_key] at h

/-- A key without a hard-coded default is none of the nine override-able keys. -/
theorem override_default_none (k : String) (h : override_default k = none) :
    k ≠ "electrum_tls" ∧ k ≠ "electrum_url" ∧ k ≠ "log_level" ∧ k ≠ "spv_multi"
    ∧ k ≠ "spv_servers" ∧ k ≠ "spv_enabled" ∧ k ≠ "use_tor" ∧ k ≠ "user_agent"
    ∧ k ≠ "cert_expiry_threshold" := by
  simp only [override_default] at h
  split_ifs at h with c1 c2 c3 c4 c5 c6 c7 c8 c9
  exact ⟨c1, c2, c3, c4, c5, c6, c7, c8, c9⟩

/-- The effective parameters hold the registered value, or none, under every key
that is not override-able. -/
theorem get_network_overrides_frame (user_params defaults R : Json)
    (h : get_network_overrides user_params defaults = .ok R) :
    ∀ k, override_default k = none → R.find k = defaults.find k := by
  unfold get_network_overrides at h
  obtain ⟨D1, e1, h⟩ := except_bind_ok _ _ _ h
  obtain ⟨D2, e2, h⟩ := except_bind_ok _ _ _ h
  obtain ⟨D3, e3, h⟩ := except_bind_ok _ _ _ h
  obtain ⟨D4, e4, h⟩ := except_bind_ok _ _ _ h
  obtain ⟨D5, e5, h⟩ := except_bind_ok _ _ _ h
  obtain ⟨D6, e6, h⟩ := except_bind_ok _ _ _ h
  obtain ⟨D7, e7, h⟩ := except_bind_ok _ _ _ h
  obtain ⟨D8, e8, h⟩ := except_bind_ok _ _ _ h
  obtain ⟨D9, e9, h⟩ := except_bind_ok _ _ _ h
  have hR : D9 = R := Except.ok.inj h
  intro k hk
  obtain ⟨c1, c2, c3, c4, c5, c6, c7, c8, c9⟩ := override_default_none k hk
  rw [← hR, set_override_frame _ _ _ _ _ _ e9 k c9, set_override_frame _ _ _ _ _ _ e8 k c8,
    set_override_frame _ _ _ _ _ _ e7 k c7, set_override_frame _ _ _ _ _ _ e6 k c6,
    set_override_frame _ _ _ _ _ _ e5 k c5, set_override_frame _ _ _ _ _ _ e4 k c4,
    set_override_frame _ _ _ _ _ _ e3 k c3, set_override_frame _ _ _ _ _ _ e2 k c2,
    set_override_frame _ _ _ _ _ _ e1 k c1]

/-- C23: whenever `get_network_overrides` returns the effective parameters, every
key outside the nine override-able keys is in them exactly when the registered
defaults have it, with the registered value, whatever the user document holds
under it; `name` and `server_type` are such keys.  The effective parameters
exist for objects whose members under the nine keys have the types of the
defaults. -/
theorem get_network_overrides_other_keys (user_params defaults : Json) :
    (∀ R, get_network_overrides user_params defaults = .ok R →
      ∀ k, k ∉ ["electrum_tls", "electrum_url", "log_level", "spv_multi", "spv_servers",
          "spv_enabled", "use_tor", "user_agent", "cert_expiry_threshold"] →
        R.find k = defaults.find k)
    ∧ (∀ R, get_network_overrides user_params defaults = .ok R →
        R.find "name" = defaults.find "name"
        ∧ R.find "server_type" = defaults.find "server_type")
    ∧ (∀ U D, user_params = Json.object U → defaults = Json.object D →
        (∀ k T d, override_default k = some (T, d) →
          member_has_type T (map_find k U) ∧ member_has_type T (map_find k D)) →
        ∃ R, get_network_overrides user_params defaults = .ok R) := by
  refine ⟨?_, ?_, ?_⟩
  · intro R h k hk
    refine get_network_overrides_frame user_params defaults R h k ?_
    simp only [List.mem_cons, List.mem_singleton, List.not_mem_nil, or_false, not_or] at hk
    obtain ⟨c1, c2, c3, c4, c5, c6, c7, c8, c9⟩ := hk
    simp [override_default, c1, c2, c3, c4, c5, c6, c7, c8, c9]
  · intro R h
    exact ⟨get_network_overrides_frame user_params defaults R h "name" rfl,
      get_network_overrides_frame user_params defaults R h "server_type" rfl⟩
  · intro U D hU hD htyped
    obtain ⟨R, hrun, _⟩ := get_network_overrides_object U D htyped
    subst hU hD
    exact ⟨_, hrun⟩

/-- The name the user supplies does not replace the registered name, while the
log level the user supplies is taken. -/
theorem get_network_overrides_other_keys_witness :
    ∃ R, get_network_overrides
        (Json.object [("log_level", Json.string "info"), ("name", Json.string "mainnet")])
        (Json.object [("name", Json.string "localtest")]) = .ok R
      ∧ R.find "name" = some (Json.string "localtest")
      ∧ R.find "log_level" = some (Json.string "info") := by
  refine ⟨_, rfl, ?_, rfl⟩
  exact ((get_network_overrides_other_keys
    (Json.object [("log_level", Json.string "info"), ("name", Json.string "mainnet")])
    (Json.object [("name", Json.string "localtest")])).2.1 _ rfl).1

end gdk
